import Mathlib

/-
Verification of the RISCV_gdbstub repository (GDB remote-debug bridge for a
RISC-V Debug Module).  This file gives a shallow embedding, in Lean 4, of the
parts of the C sources that the verified claims are about:

  * src/RVDM.c           - the DM register codec (pure bit-packing functions)
  * src/gdbstub_be.c     - the Debug-Module back end (register and memory
                           access over the DMI interface)
  * src/gdbstub_fe.c     - the RSP front end (wire codec, sliding-window
                           receiver, command dispatch / run-state flag)

Machine integers are modelled as Nat with explicit masking where the C code
masks; byte strings are List Nat (each entry a byte value).  The DMI-attached
Debug Module itself is external hardware, not part of the repository; it is
modelled from the specification (RISC-V External Debug Support v0.13 as
summarised in the repository spec) where needed, and each such definition is
marked "Modelled from the spec".
-/

namespace Gdbstub

/- ================================================================ -/
/- RVDM.c : Debug Module address map                                 -/
/- ================================================================ -/

def dm_addr_dmcontrol    : Nat := 0x10
def dm_addr_dmstatus     : Nat := 0x11
def dm_addr_hartinfo     : Nat := 0x12
def dm_addr_haltsum      : Nat := 0x13
def dm_addr_hawindowsel  : Nat := 0x14
def dm_addr_hawindow     : Nat := 0x15
def dm_addr_devtreeaddr0 : Nat := 0x19
def dm_addr_authdata     : Nat := 0x30
def dm_addr_haltregion0  : Nat := 0x40
def dm_addr_haltregion31 : Nat := 0x5F
def dm_addr_verbosity    : Nat := 0x60

def dm_addr_abstractcs   : Nat := 0x16
def dm_addr_command      : Nat := 0x17

def dm_addr_data0        : Nat := 0x04
def dm_addr_data1        : Nat := 0x05
def dm_addr_data2        : Nat := 0x06
def dm_addr_data3        : Nat := 0x07
def dm_addr_data4        : Nat := 0x08
def dm_addr_data5        : Nat := 0x09
def dm_addr_data6        : Nat := 0x0a
def dm_addr_data7        : Nat := 0x0b
def dm_addr_data8        : Nat := 0x0c
def dm_addr_data9        : Nat := 0x0d

/-- Transcribed exactly from src/RVDM.c line 65: `dm_addr_data10 = 0x0d`. -/
def dm_addr_data10       : Nat := 0x0d

def dm_addr_data11       : Nat := 0x0f

def dm_addr_abstractauto : Nat := 0x18
def dm_addr_progbuf0     : Nat := 0x20

def dm_addr_sbcs         : Nat := 0x38
def dm_addr_sbaddress0   : Nat := 0x39
def dm_addr_sbaddress1   : Nat := 0x3a
def dm_addr_sbaddress2   : Nat := 0x3b
def dm_addr_sbdata0      : Nat := 0x3c
def dm_addr_sbdata1      : Nat := 0x3d
def dm_addr_sbdata2      : Nat := 0x3e
def dm_addr_sbdata3      : Nat := 0x3f

def csr_addr_dcsr        : Nat := 0x7B0
def csr_addr_dpc         : Nat := 0x7B1

/- ================================================================ -/
/- RVDM.c : register field packing / unpacking                       -/
/- ================================================================ -/

def DM_ABSTRACTCS_CMDERR_NONE          : Nat := 0
def DM_ABSTRACTCS_CMDERR_BUSY          : Nat := 1
def DM_ABSTRACTCS_CMDERR_NOT_SUPPORTED : Nat := 2
def DM_ABSTRACTCS_CMDERR_EXCEPTION     : Nat := 3
def DM_ABSTRACTCS_CMDERR_HALT_RESUME   : Nat := 4
def DM_ABSTRACTCS_CMDERR_OTHER         : Nat := 7

def DM_SBACCESS_8_BIT   : Nat := 0
def DM_SBACCESS_16_BIT  : Nat := 1
def DM_SBACCESS_32_BIT  : Nat := 2

def DM_SBERROR_NONE       : Nat := 0
def DM_SBERROR_UNDEF7_W1C : Nat := 7

def DM_COMMAND_ACCESS_REG_SIZE_LOWER32 : Nat := 2
def DM_COMMAND_ACCESS_REG_SIZE_LOWER64 : Nat := 3

def dm_command_access_reg_regno_csr_0   : Nat := 0x0000
def dm_command_access_reg_regno_csr_FFF : Nat := 0x0FFF
def dm_command_access_reg_regno_gpr_0   : Nat := 0x1000
def dm_command_access_reg_regno_gpr_1F  : Nat := 0x101F
def dm_command_access_reg_regno_fpr_0   : Nat := 0x1020
def dm_command_access_reg_regno_fpr_1F  : Nat := 0x103F

def DMSTATUS_ANYHAVERESET : Nat := 0x00040000
def DMSTATUS_ANYUNAVAIL   : Nat := 0x00001000
def DMSTATUS_ALLHALTED    : Nat := 0x00000200

def fn_mk_dmcontrol (haltreq resumereq hartreset ackhavereset hasel : Bool)
    (hartsello hartselhi : Nat)
    (setresethaltreq clrresethaltreq ndmreset dmactive : Bool) : Nat :=
  ((haltreq.toNat &&& 0x1) <<< 31)
  ||| ((resumereq.toNat &&& 0x1) <<< 30)
  ||| ((hartreset.toNat &&& 0x1) <<< 29)
  ||| ((ackhavereset.toNat &&& 0x1) <<< 28)
  ||| ((hasel.toNat &&& 0x1) <<< 26)
  ||| ((hartsello &&& 0x3FF) <<< 16)
  ||| ((hartselhi &&& 0x3FF) <<< 6)
  ||| ((setresethaltreq.toNat &&& 0x1) <<< 3)
  ||| ((clrresethaltreq.toNat &&& 0x1) <<< 2)
  ||| ((ndmreset.toNat &&& 0x1) <<< 1)
  ||| ((dmactive.toNat &&& 0x1) <<< 0)

def fn_mk_abstractcs (cmderr : Nat) : Nat := (cmderr &&& 0x7) <<< 8

def fn_abstractcs_busy (dm_word : Nat) : Bool := ((dm_word >>> 12) &&& 0x01) ≠ 0

def fn_abstractcs_cmderr (dm_word : Nat) : Nat := (dm_word >>> 8) &&& 0x7

def DM_COMMAND_CMDTYPE_ACCESS_REG : Nat := 0

def fn_mk_command_access_reg (size : Nat)
    (aarpostincrement postexec transfer write : Bool) (regno : Nat) : Nat :=
  (DM_COMMAND_CMDTYPE_ACCESS_REG <<< 24)
  ||| ((size &&& 0x7) <<< 20)
  ||| ((aarpostincrement.toNat &&& 0x1) <<< 19)
  ||| ((postexec.toNat &&& 0x1) <<< 18)
  ||| ((transfer.toNat &&& 0x1) <<< 17)
  ||| ((write.toNat &&& 0x1) <<< 16)
  ||| ((regno &&& 0xFFFF) <<< 0)

def fn_command_access_reg_regno (dm_word : Nat) : Nat := dm_word &&& 0xFFFF

def fn_mk_sbcs (sbbusyerror sbreadonaddr : Bool) (sbaccess : Nat)
    (sbautoincrement sbreadondata : Bool) (sberror : Nat) : Nat :=
  ((1 &&& 0x7) <<< 29)
  ||| ((sbbusyerror.toNat &&& 0x1) <<< 22)
  ||| ((0 &&& 0x1) <<< 21)
  ||| ((sbreadonaddr.toNat &&& 0x1) <<< 20)
  ||| ((sbaccess &&& 0x7) <<< 17)
  ||| ((sbautoincrement.toNat &&& 0x1) <<< 16)
  ||| ((sbreadondata.toNat &&& 0x1) <<< 15)
  ||| ((sberror &&& 0x7) <<< 12)
  ||| ((0 &&& 0x7F) <<< 5)
  ||| ((0 &&& 0x1F) <<< 4)
  ||| ((0 &&& 0x1F) <<< 3)
  ||| ((0 &&& 0x1F) <<< 2)
  ||| ((0 &&& 0x1F) <<< 1)
  ||| ((0 &&& 0x1F) <<< 0)

def fn_sbcs_sbbusyerror (dm_word : Nat) : Bool := ((dm_word >>> 22) &&& 0x1) ≠ 0
def fn_sbcs_sbbusy      (dm_word : Nat) : Bool := ((dm_word >>> 21) &&& 0x1) ≠ 0
def fn_sbcs_sberror     (dm_word : Nat) : Nat  := (dm_word >>> 12) &&& 0x7

def dcsr_step_bit : Nat := 1 <<< 2

def fn_mk_dcsr (xdebugver : Nat) (ebreakm ebreaks ebreaku stepie stopcount stoptime : Bool)
    (cause : Nat) (mprven nmip step : Bool) (prv : Nat) : Nat :=
  ((xdebugver &&& 0xF) <<< 28)
  ||| ((ebreakm.toNat &&& 0x1) <<< 15)
  ||| ((ebreaks.toNat &&& 0x1) <<< 13)
  ||| ((ebreaku.toNat &&& 0x1) <<< 12)
  ||| ((stepie.toNat &&& 0x1) <<< 11)
  ||| ((stopcount.toNat &&& 0x1) <<< 10)
  ||| ((stoptime.toNat &&& 0x1) <<< 9)
  ||| ((cause &&& 0x7) <<< 6)
  ||| ((mprven.toNat &&& 0x1) <<< 4)
  ||| ((nmip.toNat &&& 0x1) <<< 3)
  ||| ((step.toNat &&& 0x1) <<< 2)
  ||| ((prv &&& 0x3) <<< 0)

def fn_dcsr_xdebugver (dm_word : Nat) : Nat  := (dm_word >>> 28) &&& 0xF
def fn_dcsr_ebreakm   (dm_word : Nat) : Bool := ((dm_word >>> 15) &&& 0x1) ≠ 0
def fn_dcsr_ebreaks   (dm_word : Nat) : Bool := ((dm_word >>> 13) &&& 0x1) ≠ 0
def fn_dcsr_ebreaku   (dm_word : Nat) : Bool := ((dm_word >>> 12) &&& 0x1) ≠ 0
def fn_dcsr_stepie    (dm_word : Nat) : Bool := ((dm_word >>> 11) &&& 0x1) ≠ 0
def fn_dcsr_stopcount (dm_word : Nat) : Bool := ((dm_word >>> 10) &&& 0x1) ≠ 0
def fn_dcsr_stoptime  (dm_word : Nat) : Bool := ((dm_word >>> 9) &&& 0x1) ≠ 0
def fn_dcsr_cause     (dm_word : Nat) : Nat  := (dm_word >>> 6) &&& 0x7
def fn_dcsr_mprven    (dm_word : Nat) : Bool := ((dm_word >>> 4) &&& 0x1) ≠ 0
def fn_dcsr_nmip      (dm_word : Nat) : Bool := ((dm_word >>> 3) &&& 0x1) ≠ 0
def fn_dcsr_step      (dm_word : Nat) : Bool := ((dm_word >>> 2) &&& 0x1) ≠ 0
def fn_dcsr_prv       (dm_word : Nat) : Nat  := (dm_word >>> 0) &&& 0x3

/- ================================================================ -/
/- gdbstub_be.h : status codes                                       -/
/- ================================================================ -/

def status_err : Nat := 0
def status_ok  : Nat := 1

/- ================================================================ -/
/- gdbstub_fe.c : hex codec (val_to_hex16 / hex16_to_val)            -/
/- ================================================================ -/

/-- The byte 0x03 that GDB sends as an interrupt. -/
def control_C : Nat := 0x03

/-- The lowercase hex-digit table `hexchars` of gdbstub_fe.c
(ASCII codes of the string of digits 0-9 and lowercase a-f). -/
def hexchars : List Nat :=
  [0x30, 0x31, 0x32, 0x33, 0x34, 0x35, 0x36, 0x37, 0x38, 0x39,
   0x61, 0x62, 0x63, 0x64, 0x65, 0x66]

/-- C library predicate isxdigit restricted to ASCII: 0-9, a-f, A-F. -/
def isxdigit (ch : Nat) : Bool :=
  (0x30 ≤ ch && ch ≤ 0x39) || (0x61 ≤ ch && ch ≤ 0x66) || (0x41 ≤ ch && ch ≤ 0x46)

/-- gdbstub_fe.c value_of_hex_digit: integer value of an ASCII hex digit,
0xFF if the character is not a hex digit. -/
def value_of_hex_digit (ch : Nat) : Nat :=
  if 0x61 ≤ ch ∧ ch ≤ 0x66 then ch - 0x61 + 10
  else if 0x41 ≤ ch ∧ ch ≤ 0x46 then ch - 0x41 + 10
  else if 0x30 ≤ ch ∧ ch ≤ 0x39 then ch - 0x30
  else 0xFF

/-- gdbstub_fe.c val_to_hex16: convert a value (up to 64 bits) into ASCII hex
digits, two per byte, bytes in little-endian order.  The buffer writes
buf[0] = hexchars[(val >> 4) & 0xF], buf[1] = hexchars[val & 0xF], and so on,
with early exit at the requested xlen, exactly as in the source. -/
def val_to_hex16 (val xlen : Nat) : List Nat :=
  let b : Nat → Nat := fun sh => hexchars.getD ((val >>> sh) &&& 0xF) 0
  if xlen = 8 then [b 4, b 0]
  else if xlen = 16 then [b 4, b 0, b 12, b 8]
  else if xlen = 32 then [b 4, b 0, b 12, b 8, b 20, b 16, b 28, b 24]
  else [b 4, b 0, b 12, b 8, b 20, b 16, b 28, b 24,
        b 36, b 32, b 44, b 40, b 52, b 48, b 60, b 56]

/-- The combining loop of hex16_to_val: pairs j = 0, 2, ..., 2(k-1) are OR'd
into the value as `val |= hex(buf[j]) << (j*4+4); val |= hex(buf[j+1]) << (j*4)`. -/
def hex16_pairs (buf : List Nat) : Nat → Nat
  | 0 => 0
  | k + 1 =>
      hex16_pairs buf k
      ||| (value_of_hex_digit (buf.getD (2 * k) 0) <<< (2 * k * 4 + 4))
      ||| (value_of_hex_digit (buf.getD (2 * k + 1) 0) <<< (2 * k * 4))

/-- gdbstub_fe.c hex16_to_val: parse xlen/4 ASCII hex digits, two per byte in
little-endian byte order; all characters must be hex digits, else status_err
(modelled as none). -/
def hex16_to_val (buf : List Nat) (xlen : Nat) : Option Nat :=
  let num_ASCII_hex_digits := xlen / 4
  if (List.range num_ASCII_hex_digits).all (fun j => isxdigit (buf.getD j 0)) then
    some (hex16_pairs buf (num_ASCII_hex_digits / 2))
  else none

/-- Written from the spec's words (section 4.5 of the spec), for comparison
with val_to_hex16: XLEN/4 lowercase hex digits, little-endian by bytes; byte
(v >> 0) & 0xFF is rendered first as two hex digits (high nibble first),
then (v >> 8) & 0xFF, and so on. -/
def spec_val_hex_le (v nbytes : Nat) : List Nat :=
  (List.range nbytes).flatMap (fun i =>
    let byte := (v >>> (8 * i)) &&& 0xFF
    [hexchars.getD (byte >>> 4) 0, hexchars.getD (byte &&& 0xF) 0])

/- ================================================================ -/
/- gdbstub_fe.c : wire escape / unescape                             -/
/- ================================================================ -/

/-- gdbstub_fe.c gdb_escape (with a large-enough destination buffer): each of
the bytes dollar 0x24, hash 0x23, star 0x2a, close-brace 0x7d becomes 0x7d
followed by the byte XOR 0x20; all other bytes are copied unchanged. -/
def gdb_escape : List Nat → List Nat
  | [] => []
  | ch :: rest =>
    if ch = 0x24 ∨ ch = 0x23 ∨ ch = 0x2a ∨ ch = 0x7d then
      0x7d :: (ch ^^^ 0x20) :: gdb_escape rest
    else
      ch :: gdb_escape rest

/-- The scanning loop of gdb_unescape: 0x7d followed by c yields c XOR 0x20; a
trailing lone 0x7d is an error (none). -/
def gdb_unescape_loop : List Nat → Option (List Nat)
  | [] => some []
  | ch :: rest =>
    if ch = 0x7d then
      match rest with
      | [] => none
      | c :: rest2 => (gdb_unescape_loop rest2).map (fun u => (c ^^^ 0x20) :: u)
    else
      (gdb_unescape_loop rest).map (fun u => ch :: u)

/-- gdbstub_fe.c gdb_unescape (with a large-enough destination buffer): the
unescaped bytes followed by the terminating 0 byte the source appends. -/
def gdb_unescape (src : List Nat) : Option (List Nat) :=
  (gdb_unescape_loop src).map (fun u => u ++ [0])

/-- A well-formed escaped payload: exactly the bytes 0x24, 0x23, 0x2a, 0x7d
are escaped (every 0x7d introduces an escape of one of those four bytes, and
no byte of the escape set appears bare). -/
def wellFormedEscaped : List Nat → Bool
  | [] => true
  | ch :: rest =>
    if ch = 0x7d then
      match rest with
      | [] => false
      | c :: rest2 =>
        (decide ((c ^^^ 0x20) = 0x24 ∨ (c ^^^ 0x20) = 0x23 ∨
                 (c ^^^ 0x20) = 0x2a ∨ (c ^^^ 0x20) = 0x7d))
          && wellFormedEscaped rest2
    else
      (decide (ch ≠ 0x24 ∧ ch ≠ 0x23 ∧ ch ≠ 0x2a)) && wellFormedEscaped rest

/- ================================================================ -/
/- gdbstub_fe.c : checksum and outgoing frame                        -/
/- ================================================================ -/

/-- gdbstub_fe.c gdb_checksum: unsigned 8-bit sum of the bytes of the buffer
(list entries are byte values, below 256). -/
def gdb_checksum (buf : List Nat) : Nat :=
  buf.foldl (fun c b => (c + b) % 256) 0

/-- The uppercase hex-digit table used by snprintf with the %02X format in
send_RSP_packet_to_GDB (digits 0-9 and uppercase A-F). -/
def upper_hexchars : List Nat :=
  [0x30, 0x31, 0x32, 0x33, 0x34, 0x35, 0x36, 0x37, 0x38, 0x39,
   0x41, 0x42, 0x43, 0x44, 0x45, 0x46]

/-- The wire frame built by gdbstub_fe.c send_RSP_packet_to_GDB: a dollar
byte, the escaped payload, a hash byte, then the two checksum characters
produced by snprintf %02X over the checksum of the escaped payload. -/
def send_RSP_packet_wire (buf : List Nat) : List Nat :=
  let escaped := gdb_escape buf
  let checksum := gdb_checksum escaped
  0x24 :: escaped ++
    [0x23, upper_hexchars.getD (checksum / 16) 0, upper_hexchars.getD (checksum % 16) 0]

/-- Written from the spec's words (property 1 / section 4.5), for comparison
with send_RSP_packet_wire: dollar, escaped payload, hash, and two LOWERCASE
hex digits of the checksum of the escaped payload. -/
def spec_frame_lower (buf : List Nat) : List Nat :=
  let escaped := gdb_escape buf
  let checksum := gdb_checksum escaped
  0x24 :: escaped ++
    [0x23, hexchars.getD (checksum / 16) 0, hexchars.getD (checksum % 16) 0]

/- ================================================================ -/
/- gdbstub_fe.c : sliding-window receiver                            -/
/- ================================================================ -/

/-- Result of one receive step of recv_RSP_packet_from_GDB: nothing / an
incomplete frame (return 0), an interrupt byte (^C delivered), a delivered
payload (checksum passed, '+' sent), a checksum mismatch ('-' sent), or an
unescape failure. -/
inductive RecvResult where
  | incomplete  : RecvResult
  | interrupt   : RecvResult
  | packet      : List Nat → RecvResult
  | badChecksum : RecvResult
  | fail        : RecvResult
deriving DecidableEq

/-- The checksum characters are decoded with strtoul base 16 on a 2-character
string: parsing stops at the first non-hex-digit character. -/
def strtoul2_hex (c1 c2 : Nat) : Nat :=
  if isxdigit c1 then
    if isxdigit c2 then 16 * value_of_hex_digit c1 + value_of_hex_digit c2
    else value_of_hex_digit c1
  else 0

/-- The frame-consuming part of recv_RSP_packet_from_GDB, applied to the
window after the leading-garbage scan: byte 0 (if present) is 0x24 or 0x03.
An interrupt byte is consumed alone (memmove from wire_buf[1], count
free_ptr - 1); a complete frame (dollar ... hash d1 d2, the hash at index
e) is checksum-checked and then discarded with
memmove (wire_buf, wire_buf + e, free_ptr - (e + 3)) and
free_ptr -= e + 3: the copy SOURCE is the hash byte at index e, not
index e + 3, while the length shrinks by the full e + 3, so the residual
window is the e-offset suffix truncated by its last 3 bytes -- it keeps
the hash and the two checksum characters at its head and loses the final
3 bytes of any trailing data.  Otherwise the window is left as is
(incomplete). -/
def recv_consume (w : List Nat) : RecvResult × List Nat :=
  if w = [] then (.incomplete, w)
  else if w.headD 0 = control_C then (.interrupt, w.drop 1)
  else
    match (w.drop 1).findIdx? (fun b => b == 0x23) with
    | none => (.incomplete, w)
    | some i =>
      let e := i + 1
      if w.length < e + 3 then (.incomplete, w)
      else
        let payload := (w.drop 1).take (e - 1)
        let computed := gdb_checksum payload
        let received := strtoul2_hex (w.getD (e + 1) 0) (w.getD (e + 2) 0)
        if computed ≠ received then (.badChecksum, (w.drop e).take (w.length - (e + 3)))
        else
          match gdb_unescape payload with
          | some u => (.packet u, (w.drop e).take (w.length - (e + 3)))
          | none => (.fail, (w.drop e).take (w.length - (e + 3)))

/-- One step of gdbstub_fe.c recv_RSP_packet_from_GDB: the bytes read from the
socket are appended to the sliding window, leading bytes that are neither
0x24 nor 0x03 are logged and discarded, and then at most one interrupt byte
or complete frame is consumed. -/
def recv_RSP_step (window input : List Nat) : RecvResult × List Nat :=
  recv_consume ((window ++ input).dropWhile (fun b => !(b == 0x24 || b == control_C)))

/- ================================================================ -/
/- gdbstub_fe.c : the waiting_for_stop_reason flag                   -/
/- ================================================================ -/

/-- The events of the dispatcher loop in main_gdbstub that can interact with
the static waiting_for_stop_reason flag.  Back-end results are parameters:
stopStatus / contStatus / stepStatus are the status returned by
gdbstub_be_stop / continue / step, sr is the value returned by
gdbstub_be_get_stop_reason (0 halted, -1 error or timeout, -2 still
running), parseOk tells whether the command's argument parse succeeded. -/
inductive RSPEvent where
  | evControlC  : Nat → RSPEvent
  | evQuery     : Int → RSPEvent
  | evContinue  : Bool → Nat → RSPEvent
  | evStep      : Bool → Nat → RSPEvent
  | evPollStop  : Int → Nat → RSPEvent
  | evShutdownD : RSPEvent
  | evOther     : RSPEvent
deriving DecidableEq

/-- handle_RSP_control_C: on back-end stop failure an error response is sent
and the flag is untouched; otherwise the flag is set. -/
def handle_RSP_control_C_flag (stopStatus : Nat) (flag : Bool) : Bool :=
  if stopStatus ≠ status_ok then flag else true

/-- handle_RSP_stop_reason (the '?' command): sr = 0 sends the T packet and
clears the flag; sr = -1 sends an error response and clears the flag;
sr = -2 (still running) sets the flag. -/
def handle_RSP_stop_reason_flag (sr : Int) (flag : Bool) : Bool :=
  if sr = 0 then false
  else if sr = -1 then false
  else true

/-- handle_RSP_c_continue: the flag is set only after a successful parse and a
successful back-end continue. -/
def handle_RSP_c_continue_flag (parseOk : Bool) (contStatus : Nat) (flag : Bool) : Bool :=
  if ¬ parseOk then flag
  else if contStatus ≠ status_ok then flag
  else true

/-- handle_RSP_s_step: the flag is set only after a successful parse and a
successful back-end step. -/
def handle_RSP_s_step_flag (parseOk : Bool) (stepStatus : Nat) (flag : Bool) : Bool :=
  if ¬ parseOk then flag
  else if stepStatus ≠ status_ok then flag
  else true

/-- The stop-reason polling block at the top of the main_gdbstub loop, entered
only when the flag is set: sr = 0 sends the T packet and clears the flag;
sr = -1 issues a back-end stop and, if that fails, sends an error response
and clears the flag; sr = -2 leaves the flag set. -/
def main_loop_poll_flag (sr : Int) (stopStatus : Nat) (flag : Bool) : Bool :=
  if sr = 0 then false
  else if sr = -1 then (if stopStatus ≠ status_ok then false else flag)
  else flag

/-- The effect of one dispatcher-loop event on waiting_for_stop_reason,
assembled from the handlers above; the D (detach) handler and every other
command handler leave the flag unchanged. -/
def fe_flag_step : RSPEvent → Bool → Bool
  | .evControlC stopStatus, flag => handle_RSP_control_C_flag stopStatus flag
  | .evQuery sr, flag => handle_RSP_stop_reason_flag sr flag
  | .evContinue parseOk contStatus, flag => handle_RSP_c_continue_flag parseOk contStatus flag
  | .evStep parseOk stepStatus, flag => handle_RSP_s_step_flag parseOk stepStatus flag
  | .evPollStop sr stopStatus, flag =>
      if flag then main_loop_poll_flag sr stopStatus flag else flag
  | .evShutdownD, flag => flag
  | .evOther, flag => flag

/-- An event is a run-control command (continue or step) in the sense of the
claim about waiting_for_stop_reason. -/
def isRunControl : RSPEvent → Bool
  | .evContinue _ _ => true
  | .evStep _ _ => true
  | _ => false

/-- The events that set waiting_for_stop_reason in the source. -/
def sets_waiting : RSPEvent → Bool
  | .evControlC stopStatus => stopStatus == status_ok
  | .evQuery sr => !(sr == 0) && !(sr == -1)
  | .evContinue parseOk contStatus => parseOk && contStatus == status_ok
  | .evStep parseOk stepStatus => parseOk && stepStatus == status_ok
  | _ => false

/-- The events that clear waiting_for_stop_reason in the source. -/
def clears_waiting : RSPEvent → Bool
  | .evQuery sr => sr == 0 || sr == -1
  | .evPollStop sr stopStatus => sr == 0 || (sr == -1 && !(stopStatus == status_ok))
  | _ => false

/- ================================================================ -/
/- The Debug Module device.                                          -/
/- Modelled from the spec: the DM hardware behind the DMI port is    -/
/- external to the repository (gdbstub_dmi.h declares only the two   -/
/- primitives dmi_read / dmi_write, and gdbstub_dmi_stub.c is an     -/
/- empty stub).  The model below follows the RISC-V External Debug   -/
/- Support v0.13 behaviour as summarised in the repository spec      -/
/- (sections 4.2 and 4.3): abstract register-access commands through -/
/- data0/data1/command/abstractcs with a sticky write-1-to-clear     -/
/- cmderr, and System-Bus memory access through sbcs / sbaddress /   -/
/- sbdata with read-on-addr, read-on-data and auto-increment.  The   -/
/- model is error-free and never busy: sbbusy, sbbusyerror, sberror  -/
/- and abstractcs.busy always read back as zero.                     -/
/- ================================================================ -/

/-- Modelled from the spec: the externally visible state of the Debug Module
and of the system behind it.  Memory is byte-addressed (values are bytes);
hart registers are indexed by the DM register number of the abstract-command
encoding (CSR x at x, GPR x at 0x1000+x, FPR x at 0x1020+x). -/
structure DM where
  mem : Nat → Nat
  regs : Nat → Nat
  data0 : Nat
  data1 : Nat
  cmderr : Nat
  sb_readonaddr : Bool
  sb_autoincrement : Bool
  sb_readondata : Bool
  sb_access : Nat
  sbaddress : Nat
  sbdata : Nat
  dmstatus : Nat
  dmcontrol : Nat
  verbosity : Nat

/-- One byte of system memory (memory cells are bytes). -/
def dm_read8 (mem : Nat → Nat) (a : Nat) : Nat := mem a % 256

/-- Modelled from the spec: little-endian system-bus read of n bytes at a. -/
def dm_read_bytes (mem : Nat → Nat) (a : Nat) : Nat → Nat
  | 0 => 0
  | n + 1 => dm_read8 mem a + 256 * dm_read_bytes mem (a + 1) n

/-- Store one byte of system memory. -/
def dm_write8 (mem : Nat → Nat) (a v : Nat) : Nat → Nat :=
  fun x => if x = a then v % 256 else mem x

/-- Modelled from the spec: little-endian system-bus write of n bytes at a. -/
def dm_write_bytes (mem : Nat → Nat) (a v : Nat) : Nat → (Nat → Nat)
  | 0 => mem
  | n + 1 => dm_write_bytes (dm_write8 mem a v) (a + 1) (v / 256) n

/-- Access width in bytes selected by sbcs.sbaccess. -/
def sb_width (access : Nat) : Nat := 1 <<< access

/-- Modelled from the spec: a system-bus read at the current sbaddress into
sbdata, followed by the auto-increment of sbaddress when enabled. -/
def sb_trigger_read (s : DM) : DM :=
  let n := sb_width s.sb_access
  let s := { s with sbdata := dm_read_bytes s.mem s.sbaddress n }
  if s.sb_autoincrement then { s with sbaddress := s.sbaddress + n } else s

/-- Modelled from the spec: a write to sbdata0 performs a system-bus write at
the current sbaddress, followed by the auto-increment when enabled. -/
def sb_do_write (s : DM) (v : Nat) : DM :=
  let n := sb_width s.sb_access
  let s := { s with mem := dm_write_bytes s.mem s.sbaddress v n, sbdata := v }
  if s.sb_autoincrement then { s with sbaddress := s.sbaddress + n } else s

/-- Modelled from the spec: execution of an abstract command written to the
command register.  While cmderr is non-zero the command is ignored (the
error is sticky); an unsupported command type or size sets
cmderr = not_supported; an access-register command with transfer moves the
value between data0/data1 and the selected register. -/
def dm_exec_command (s : DM) (cmd : Nat) : DM :=
  if s.cmderr ≠ 0 then s
  else if (cmd >>> 24) &&& 0xFF ≠ DM_COMMAND_CMDTYPE_ACCESS_REG then
    { s with cmderr := DM_ABSTRACTCS_CMDERR_NOT_SUPPORTED }
  else
    let size := (cmd >>> 20) &&& 0x7
    let transfer := (cmd >>> 17) &&& 0x1
    let write := (cmd >>> 16) &&& 0x1
    let regno := cmd &&& 0xFFFF
    if size ≠ DM_COMMAND_ACCESS_REG_SIZE_LOWER32 ∧ size ≠ DM_COMMAND_ACCESS_REG_SIZE_LOWER64 then
      { s with cmderr := DM_ABSTRACTCS_CMDERR_NOT_SUPPORTED }
    else if transfer = 0 then s
    else if write = 1 then
      let v := if size = DM_COMMAND_ACCESS_REG_SIZE_LOWER64
               then (s.data1 <<< 32) ||| s.data0 else s.data0
      { s with regs := fun r => if r = regno then v else s.regs r }
    else
      let v := s.regs regno
      if size = DM_COMMAND_ACCESS_REG_SIZE_LOWER64 then
        { s with data0 := v % 4294967296, data1 := (v >>> 32) % 4294967296 }
      else
        { s with data0 := v % 4294967296 }

/-- Modelled from the spec: the value read back from abstractcs (busy is
always 0 in this model; cmderr is the sticky error field). -/
def dm_abstractcs_value (s : DM) : Nat := (s.cmderr &&& 0x7) <<< 8

/-- Modelled from the spec: the value read back from sbcs (sbversion 1;
sbbusy, sbbusyerror and sberror always 0 in this error-free model). -/
def dm_sbcs_value (s : DM) : Nat :=
  (1 <<< 29) ||| (s.sb_readonaddr.toNat <<< 20) ||| ((s.sb_access &&& 0x7) <<< 17)
  ||| (s.sb_autoincrement.toNat <<< 16) ||| (s.sb_readondata.toNat <<< 15)

/-- Modelled from the spec: the value a DMI read returns per address. -/
def dm_read_value (s : DM) (a : Nat) : Nat :=
  if a = dm_addr_dmstatus then s.dmstatus
  else if a = dm_addr_abstractcs then dm_abstractcs_value s
  else if a = dm_addr_data0 then s.data0
  else if a = dm_addr_data1 then s.data1
  else if a = dm_addr_sbcs then dm_sbcs_value s
  else if a = dm_addr_sbdata0 then s.sbdata
  else if a = dm_addr_dmcontrol then s.dmcontrol
  else 0

/-- Modelled from the spec: the state effect of a DMI read (a read of sbdata0
with sbreadondata enabled triggers the next bus read). -/
def dm_step_read (s : DM) (a : Nat) : Nat × DM :=
  let v := dm_read_value s a
  if a = dm_addr_sbdata0 ∧ s.sb_readondata then (v, sb_trigger_read s) else (v, s)

/-- Modelled from the spec: the state effect of a DMI write.  A write to
sbaddress0 sets the low 32 address bits and, with sbreadonaddr enabled,
triggers a bus read; sbaddress1 sets the high 32 bits; a write to
abstractcs clears cmderr when the write-1-to-clear field is set. -/
def dm_step_write (s : DM) (a v : Nat) : DM :=
  if a = dm_addr_sbcs then
    { s with sb_readonaddr := ((v >>> 20) &&& 0x1) = 1,
             sb_access := (v >>> 17) &&& 0x7,
             sb_autoincrement := ((v >>> 16) &&& 0x1) = 1,
             sb_readondata := ((v >>> 15) &&& 0x1) = 1 }
  else if a = dm_addr_sbaddress0 then
    let s := { s with sbaddress := (s.sbaddress >>> 32) * 4294967296 + v % 4294967296 }
    if s.sb_readonaddr then sb_trigger_read s else s
  else if a = dm_addr_sbaddress1 then
    { s with sbaddress := (v % 4294967296) * 4294967296 + s.sbaddress % 4294967296 }
  else if a = dm_addr_sbdata0 then sb_do_write s v
  else if a = dm_addr_data0 then { s with data0 := v % 4294967296 }
  else if a = dm_addr_data1 then { s with data1 := v % 4294967296 }
  else if a = dm_addr_command then dm_exec_command s v
  else if a = dm_addr_abstractcs then
    if (v >>> 8) &&& 0x7 ≠ 0 then { s with cmderr := 0 } else s
  else if a = dm_addr_dmcontrol then { s with dmcontrol := v }
  else if a = dm_addr_verbosity then { s with verbosity := v }
  else s

/- ================================================================ -/
/- The DMI seam (gdbstub_dmi.h) with an operation trace              -/
/- ================================================================ -/

/-- One DMI transaction, as issued by the back end. -/
inductive DmiOp where
  | rd : Nat → Nat → DmiOp
  | wr : Nat → Nat → DmiOp
deriving DecidableEq

/-- The back-end view: the Debug Module it drives plus the trace of DMI
operations issued so far. -/
structure BE where
  dm : DM
  log : List DmiOp

/-- The dmi_read primitive of gdbstub_dmi.h, with tracing. -/
def dmi_read (a : Nat) (s : BE) : Nat × BE :=
  let p := dm_step_read s.dm a
  (p.1, ⟨p.2, s.log ++ [DmiOp.rd a p.1]⟩)

/-- The dmi_write primitive of gdbstub_dmi.h, with tracing. -/
def dmi_write (a v : Nat) (s : BE) : BE :=
  ⟨dm_step_write s.dm a v, s.log ++ [DmiOp.wr a v]⟩

/- ================================================================ -/
/- gdbstub_be.c : polling helpers                                    -/
/- ================================================================ -/

/-- The 1-second / 1,000,000-iteration polling budget of gdbstub_be.c. -/
def POLL_FUEL : Nat := 1000001

/-- gdbstub_be.c poll_dmstatus: poll dmstatus until (dmstatus & mask) = value
or the budget runs out.  Returns (status, last dmstatus, state). -/
def poll_dmstatus : Nat → Nat → Nat → BE → Nat × Nat × BE
  | 0, _, _, s => (status_err, 0, s)
  | fuel + 1, mask, value, s =>
    let p := dmi_read dm_addr_dmstatus s
    if p.1 &&& mask = value then (status_ok, p.1, p.2)
    else poll_dmstatus fuel mask value p.2

/-- gdbstub_be.c poll_abstractcs_until_notbusy. -/
def poll_abstractcs_until_notbusy : Nat → BE → Nat × Nat × BE
  | 0, s => (status_err, 0, s)
  | fuel + 1, s =>
    let p := dmi_read dm_addr_abstractcs s
    if ¬ fn_abstractcs_busy p.1 then (status_ok, p.1, p.2)
    else poll_abstractcs_until_notbusy fuel p.2

/-- gdbstub_be.c gdbstub_be_wait_for_sb_nonbusy: poll sbcs until sbbusy is
clear.  Returns (status, last sbcs, state). -/
def gdbstub_be_wait_for_sb_nonbusy : Nat → BE → Nat × Nat × BE
  | 0, s => (status_err, 0, s)
  | fuel + 1, s =>
    let p := dmi_read dm_addr_sbcs s
    if ¬ fn_sbcs_sbbusy p.1 then (status_ok, p.1, p.2)
    else gdbstub_be_wait_for_sb_nonbusy fuel p.2

/-- gdbstub_be.c check_abstractcs_error: if abstractcs.cmderr is non-zero,
clear it by writing cmderr = 0b111 (write-1-to-clear) to abstractcs; return
the observed cmderr. -/
def check_abstractcs_error (abstractcs : Nat) (s : BE) : Nat × BE :=
  let cmderr := fn_abstractcs_cmderr abstractcs
  if cmderr ≠ 0 then
    (cmderr, dmi_write dm_addr_abstractcs (fn_mk_abstractcs DM_ABSTRACTCS_CMDERR_OTHER) s)
  else (cmderr, s)

/- ================================================================ -/
/- gdbstub_be.c : shared register access                             -/
/- ================================================================ -/

/-- gdbstub_be.c gdbstub_be_reg_read.  Returns (status, regval, cmderr,
state); the out-value is 0 unless the read succeeds. -/
def gdbstub_be_reg_read (xlen regno : Nat) (s : BE) : Nat × Nat × Nat × BE :=
  let command := fn_mk_command_access_reg
      (if xlen = 32 then DM_COMMAND_ACCESS_REG_SIZE_LOWER32
       else DM_COMMAND_ACCESS_REG_SIZE_LOWER64)
      false false true false regno
  let s := dmi_write dm_addr_command command s
  let q := poll_abstractcs_until_notbusy POLL_FUEL s
  let r := check_abstractcs_error q.2.1 q.2.2
  if r.1 = 0 then
    let p0 := dmi_read dm_addr_data0 r.2
    if xlen = 64 then
      let p1 := dmi_read dm_addr_data1 p0.2
      (status_ok, (p1.1 <<< 32) ||| p0.1, r.1, p1.2)
    else
      (status_ok, p0.1, r.1, p0.2)
  else
    (status_err, 0, r.1, r.2)

/-- gdbstub_be.c gdbstub_be_reg_write.  Returns (status, cmderr, state).
The source returns status_ok on BOTH the cmderr = 0 and the cmderr not 0
branches (gdbstub_be.c lines 324-330); this is transcribed as-is. -/
def gdbstub_be_reg_write (xlen regno regval : Nat) (s : BE) : Nat × Nat × BE :=
  let s := dmi_write dm_addr_data0 (regval % 4294967296) s
  let s := if xlen = 64 then dmi_write dm_addr_data1 ((regval >>> 32) % 4294967296) s else s
  let command := fn_mk_command_access_reg
      (if xlen = 32 then DM_COMMAND_ACCESS_REG_SIZE_LOWER32
       else DM_COMMAND_ACCESS_REG_SIZE_LOWER64)
      false false true true regno
  let s := dmi_write dm_addr_command command s
  let q := poll_abstractcs_until_notbusy POLL_FUEL s
  let r := check_abstractcs_error q.2.1 q.2.2
  if r.1 = 0 then (status_ok, r.1, r.2)
  else (status_ok, r.1, r.2)

/- ================================================================ -/
/- gdbstub_be.c : 32-bit word memory access helpers                  -/
/- ================================================================ -/

/-- Byte i of a 32-bit value laid out little-endian in host memory, as seen
through the (uint8_t *) casts of gdbstub_be.c. -/
def word_byte (x i : Nat) : Nat := (x >>> (8 * i)) &&& 0xFF

/-- The 32-bit value obtained by the (uint32_t *) load of 4 consecutive bytes
of the little-endian host buffer in gdbstub_be_mem_write. -/
def word_of_bytes (b0 b1 b2 b3 : Nat) : Nat :=
  b0 ||| (b1 <<< 8) ||| (b2 <<< 16) ||| (b3 <<< 24)

/-- gdbstub_be.c gdbstub_be_mem32_read: one 32-bit system-bus read, used for
the read part of the unaligned-edge read-modify-writes.  The source calls
exit(1) on an unaligned address (its callers always pass aligned ones); the
model returns status_err there.  Returns (status, data, state). -/
def gdbstub_be_mem32_read (xlen addr : Nat) (s : BE) : Nat × Nat × BE :=
  if addr % 4 ≠ 0 then (status_err, 0, s)
  else
    let w := gdbstub_be_wait_for_sb_nonbusy POLL_FUEL s
    if w.1 = status_err then (w.1, 0, w.2.2)
    else
      let sbcs := fn_mk_sbcs true true DM_SBACCESS_32_BIT true true DM_SBERROR_UNDEF7_W1C
      let s := dmi_write dm_addr_sbcs sbcs w.2.2
      let s := if xlen = 64 then dmi_write dm_addr_sbaddress1 ((addr >>> 32) % 4294967296) s else s
      let s := dmi_write dm_addr_sbaddress0 (addr % 4294967296) s
      let w := gdbstub_be_wait_for_sb_nonbusy POLL_FUEL s
      if w.1 = status_err then (w.1, 0, w.2.2)
      else
        let p := dmi_read dm_addr_sbdata0 w.2.2
        (status_ok, p.1, p.2)

/-- gdbstub_be.c gdbstub_be_mem32_write: one 32-bit system-bus write, used for
the write part of the unaligned-edge read-modify-writes.  Returns
(status, state). -/
def gdbstub_be_mem32_write (xlen addr data : Nat) (s : BE) : Nat × BE :=
  if addr % 4 ≠ 0 then (status_err, s)
  else
    let w := gdbstub_be_wait_for_sb_nonbusy POLL_FUEL s
    if w.1 = status_err then (w.1, w.2.2)
    else
      let sbcs := fn_mk_sbcs true false DM_SBACCESS_32_BIT false false DM_SBERROR_UNDEF7_W1C
      let s := dmi_write dm_addr_sbcs sbcs w.2.2
      let w := gdbstub_be_wait_for_sb_nonbusy POLL_FUEL s
      if w.1 = status_err then (w.1, w.2.2)
      else
        let s := if xlen = 64 then dmi_write dm_addr_sbaddress1 ((addr >>> 32) % 4294967296) w.2.2 else w.2.2
        let s := dmi_write dm_addr_sbaddress0 (addr % 4294967296) s
        let w := gdbstub_be_wait_for_sb_nonbusy POLL_FUEL s
        if w.1 = status_err then (w.1, w.2.2)
        else
          let s := dmi_write dm_addr_sbdata0 data w.2.2
          (status_ok, s)

/- ================================================================ -/
/- gdbstub_be.c : gdbstub_be_mem_read                                -/
/- ================================================================ -/

/-- The word loop of gdbstub_be_mem_read: each sbdata0 read yields the next
32-bit word (sbreadondata plus auto-increment); the first word contributes
only the bytes from the unaligned offset up, intermediate words all 4
bytes, and the final word the remaining bytes.  The iteration count is the
number of words, (addr_lim4 - addr4) / 4 at the call site, matching the
while (addr4 < addr_lim4) loop of the source. -/
def mem_read_words : Nat → Nat → Nat → Nat → List Nat → BE → Nat × List Nat × BE
  | 0, _, _, _, acc, s => (status_ok, acc, s)
  | n + 1, addr4, addr, addr_lim, acc, s =>
    let w := gdbstub_be_wait_for_sb_nonbusy POLL_FUEL s
    if w.1 = status_err then (w.1, acc, w.2.2)
    else
      let p := dmi_read dm_addr_sbdata0 w.2.2
      let chunk : List Nat :=
        if addr4 < addr then
          (List.range (4 - (addr - addr4))).map (fun i => word_byte p.1 (addr - addr4 + i))
        else if addr4 + 4 ≤ addr_lim then
          [word_byte p.1 0, word_byte p.1 1, word_byte p.1 2, word_byte p.1 3]
        else
          (List.range (addr_lim - addr4)).map (fun i => word_byte p.1 i)
      mem_read_words n (addr4 + 4) addr addr_lim (acc ++ chunk) p.2

/-- gdbstub_be.c gdbstub_be_mem_read: read len bytes starting at addr with no
alignment restriction, using 32-bit system-bus reads only.  Returns
(status, bytes written to the output buffer in order, state); the first len
entries are the bytes of buf[0..len). -/
def gdbstub_be_mem_read (inited : Bool) (xlen addr len : Nat) (s : BE) : Nat × List Nat × BE :=
  if ¬ inited then (status_ok, [], s)
  else if len = 0 then (status_ok, [], s)
  else
    let addr_lim := addr + len
    let addr4 := addr - addr % 4
    let addr_lim4 := (addr_lim + 3) - (addr_lim + 3) % 4
    let w := gdbstub_be_wait_for_sb_nonbusy POLL_FUEL s
    if w.1 = status_err then (w.1, [], w.2.2)
    else
      let sbcs := fn_mk_sbcs true true DM_SBACCESS_32_BIT true true DM_SBERROR_UNDEF7_W1C
      let s := dmi_write dm_addr_sbcs sbcs w.2.2
      let w := gdbstub_be_wait_for_sb_nonbusy POLL_FUEL s
      if w.1 = status_err then (w.1, [], w.2.2)
      else
        let s := if xlen = 64 then dmi_write dm_addr_sbaddress1 ((addr4 >>> 32) % 4294967296) w.2.2 else w.2.2
        let s := dmi_write dm_addr_sbaddress0 (addr4 % 4294967296) s
        mem_read_words ((addr_lim4 - addr4) / 4) addr4 addr addr_lim [] s

/- ================================================================ -/
/- gdbstub_be.c : gdbstub_be_mem_write                               -/
/- ================================================================ -/

/-- The new word written by the initial read-modify-write of
gdbstub_be_mem_write: bytes below the offset keep the memory value x,
bytes from the offset up come from data[0..4-offset)
(memcpy (&p_x[offset], &data[0], 4-offset)). -/
def rmw_lead (x offset : Nat) (data : List Nat) : Nat :=
  let b : Nat → Nat := fun i => if i < offset then word_byte x i else data.getD (i - offset) 0
  word_of_bytes (b 0) (b 1) (b 2) (b 3)

/-- The new word written by the final read-modify-write of
gdbstub_be_mem_write: the first n bytes come from data[jd..jd+n), the rest
keep the memory value x (memcpy (p_x, &data[jd], n)). -/
def rmw_suffix (x n : Nat) (data : List Nat) (jd : Nat) : Nat :=
  let b : Nat → Nat := fun i => if i < n then data.getD (jd + i) 0 else word_byte x i
  word_of_bytes (b 0) (b 1) (b 2) (b 3)

/-- The whole-word streaming loop of gdbstub_be_mem_write: each iteration
loads a 32-bit word from data[jd..jd+4) and writes it to sbdata0 (the bus
address auto-increments).  The iteration count is (addr_lim4 - addr4) / 4
at the call site, matching the while (addr4 < addr_lim4) loop. -/
def mem_write_words : Nat → Nat → List Nat → Nat → BE → BE
  | 0, _, _, _, s => s
  | n + 1, addr4, data, jd, s =>
    let x := word_of_bytes (data.getD jd 0) (data.getD (jd + 1) 0)
                           (data.getD (jd + 2) 0) (data.getD (jd + 3) 0)
    let s := dmi_write dm_addr_sbdata0 x s
    mem_write_words n (addr4 + 4) data (jd + 4) s

/-- The part of gdbstub_be_mem_write after the optional initial
read-modify-write: configure sbcs (auto-increment, no read-on-addr), write
the starting aligned address, stream the whole 32-bit words, do the final
read-modify-write if a partial word remains (the source ignores the two
statuses there), then wait for non-busy and check the sbcs error bits. -/
def mem_write_main (xlen : Nat) (data : List Nat) (addr4 jd addr_lim addr_lim4 : Nat)
    (s : BE) : Nat × BE :=
  let w := gdbstub_be_wait_for_sb_nonbusy POLL_FUEL s
  if w.1 = status_err then (w.1, w.2.2)
  else
    let sbcs := fn_mk_sbcs true false DM_SBACCESS_32_BIT true false DM_SBERROR_UNDEF7_W1C
    let s := dmi_write dm_addr_sbcs sbcs w.2.2
    let w := gdbstub_be_wait_for_sb_nonbusy POLL_FUEL s
    if w.1 = status_err then (w.1, w.2.2)
    else
      let s := if xlen = 64 then dmi_write dm_addr_sbaddress1 ((addr4 >>> 32) % 4294967296) w.2.2 else w.2.2
      let s := dmi_write dm_addr_sbaddress0 (addr4 % 4294967296) s
      let nwords := (addr_lim4 - addr4) / 4
      let s := mem_write_words nwords addr4 data jd s
      let addr4 := addr4 + 4 * nwords
      let jd := jd + 4 * nwords
      let s :=
        if addr4 < addr_lim then
          let r := gdbstub_be_mem32_read xlen addr4 s
          let n := addr_lim - addr4
          let x2 := rmw_suffix r.2.1 n data jd
          (gdbstub_be_mem32_write xlen addr4 x2 r.2.2).2
        else s
      let w := gdbstub_be_wait_for_sb_nonbusy POLL_FUEL s
      if w.1 ≠ status_ok then (w.1, w.2.2)
      else if fn_sbcs_sbbusyerror w.2.1 then (status_err, w.2.2)
      else if fn_sbcs_sberror w.2.1 ≠ DM_SBERROR_NONE then (status_err, w.2.2)
      else (status_ok, w.2.2)

/-- gdbstub_be.c gdbstub_be_mem_write: write the bytes of data starting at
addr with no alignment restriction, using 32-bit system-bus writes only
(read-modify-write of the enclosing word at unaligned edges).  Returns
(status, state). -/
def gdbstub_be_mem_write (inited : Bool) (xlen addr : Nat) (data : List Nat)
    (s : BE) : Nat × BE :=
  if ¬ inited then (status_ok, s)
  else if data.length = 0 then (status_ok, s)
  else
    let len := data.length
    let addr_lim := addr + len
    let addr4 := addr - addr % 4
    let addr_lim4 := addr_lim - addr_lim % 4
    if addr ≠ addr4 then
      let r := gdbstub_be_mem32_read xlen addr4 s
      if r.1 ≠ status_ok then (r.1, r.2.2)
      else
        let offset := addr - addr4
        let x2 := rmw_lead r.2.1 offset data
        let v := gdbstub_be_mem32_write xlen addr4 x2 r.2.2
        if v.1 ≠ status_ok then (v.1, v.2)
        else mem_write_main xlen data (addr4 + 4) (4 - offset) addr_lim addr_lim4 v.2
    else
      mem_write_main xlen data addr4 0 addr_lim addr_lim4 s

/- ================================================================ -/
/- gdbstub_be.c : subword memory access                              -/
/- ================================================================ -/

/-- The sbaccess size selection shared by the subword operations: len must be
1, 2 or 4 and addr naturally aligned for it. -/
def subword_sbaccess (addr len : Nat) : Option Nat :=
  if len = 1 then some DM_SBACCESS_8_BIT
  else if len = 2 then (if addr % 2 ≠ 0 then none else some DM_SBACCESS_16_BIT)
  else if len = 4 then (if addr % 4 ≠ 0 then none else some DM_SBACCESS_32_BIT)
  else none

/-- gdbstub_be.c gdbstub_be_mem_read_subword: a single 1/2/4-byte naturally
aligned bus read that must not straddle a 32-bit word.  Returns
(status, read value if performed, state). -/
def gdbstub_be_mem_read_subword (inited : Bool) (xlen addr len : Nat)
    (s : BE) : Nat × Option Nat × BE :=
  if ¬ inited then (status_ok, none, s)
  else
    let addr_lim := (addr + 4) - (addr + 4) % 4
    if addr + len > addr_lim then (status_err, none, s)
    else
      match subword_sbaccess addr len with
      | none => (status_err, none, s)
      | some sbaccess =>
        let w := gdbstub_be_wait_for_sb_nonbusy POLL_FUEL s
        if w.1 = status_err then (w.1, none, w.2.2)
        else
          let s := dmi_write dm_addr_sbcs
              (fn_mk_sbcs true true sbaccess false false DM_SBERROR_UNDEF7_W1C) w.2.2
          let w := gdbstub_be_wait_for_sb_nonbusy POLL_FUEL s
          if w.1 = status_err then (w.1, none, w.2.2)
          else
            let s := if xlen = 64 then dmi_write dm_addr_sbaddress1 ((addr >>> 32) % 4294967296) w.2.2 else w.2.2
            let s := dmi_write dm_addr_sbaddress0 (addr % 4294967296) s
            let w := gdbstub_be_wait_for_sb_nonbusy POLL_FUEL s
            if w.1 = status_err then (w.1, none, w.2.2)
            else
              let p := dmi_read dm_addr_sbdata0 w.2.2
              (status_ok, some p.1, p.2)

/-- gdbstub_be.c gdbstub_be_mem_write_subword: a single 1/2/4-byte naturally
aligned bus write.  Returns (status, state). -/
def gdbstub_be_mem_write_subword (inited : Bool) (xlen addr data len : Nat)
    (s : BE) : Nat × BE :=
  if ¬ inited then (status_ok, s)
  else if ¬ (len = 1 ∨ len = 2 ∨ len = 4) then (status_err, s)
  else
    match subword_sbaccess addr len with
    | none => (status_err, s)
    | some sbaccess =>
      let w := gdbstub_be_wait_for_sb_nonbusy POLL_FUEL s
      if w.1 = status_err then (w.1, w.2.2)
      else
        let s := dmi_write dm_addr_sbcs
            (fn_mk_sbcs true false sbaccess false false DM_SBERROR_UNDEF7_W1C) w.2.2
        let w := gdbstub_be_wait_for_sb_nonbusy POLL_FUEL s
        if w.1 = status_err then (w.1, w.2.2)
        else
          let s := if xlen = 64 then dmi_write dm_addr_sbaddress1 ((addr >>> 32) % 4294967296) w.2.2 else w.2.2
          let s := dmi_write dm_addr_sbaddress0 (addr % 4294967296) s
          let s := dmi_write dm_addr_sbdata0 data s
          let w := gdbstub_be_wait_for_sb_nonbusy POLL_FUEL s
          (w.1, w.2.2)

/- ================================================================ -/
/- gdbstub_be.c : remaining public operations                        -/
/- Every public operation starts with the                            -/
/-   if (! initialized) return status_ok;                            -/
/- guard of the source (the static flag becomes the inited           -/
/- parameter).  The static run_mode variable of the source is        -/
/- written by continue/step/stop/get_stop_reason but never read      -/
/- anywhere, so it is not modelled.                                  -/
/- ================================================================ -/

/-- gdbstub_be.c gdbstub_be_dm_reset: write dmcontrol with dmactive = 0, poll
abstractcs, clear any cmderr, read dmstatus back and check the DM version
field (only version 2, debug spec 0.13, is accepted). -/
def gdbstub_be_dm_reset (inited : Bool) (xlen : Nat) (s : BE) : Nat × BE :=
  if ¬ inited then (status_ok, s)
  else
    let dmcontrol := fn_mk_dmcontrol false false false false false 0 0 false false false false
    let s := dmi_write dm_addr_dmcontrol dmcontrol s
    let q := poll_abstractcs_until_notbusy POLL_FUEL s
    let r := check_abstractcs_error q.2.1 q.2.2
    let p := dmi_read dm_addr_dmstatus r.2
    let version := p.1 &&& 0xF
    if version = 0 then (status_err, p.2)
    else if version = 1 then (status_err, p.2)
    else if version = 2 then (status_ok, p.2)
    else (status_err, p.2)

/-- gdbstub_be.c gdbstub_be_ndm_reset: pulse dmcontrol.ndmreset (assert then
deassert), then poll dmstatus until anyunavail clears. -/
def gdbstub_be_ndm_reset (inited : Bool) (xlen : Nat) (haltreq : Bool) (s : BE) : Nat × BE :=
  if ¬ inited then (status_ok, s)
  else
    let d1 := fn_mk_dmcontrol haltreq false false false false 0 0 false false true true
    let s := dmi_write dm_addr_dmcontrol d1 s
    let d2 := fn_mk_dmcontrol haltreq false false false false 0 0 false false false true
    let s := dmi_write dm_addr_dmcontrol d2 s
    let q := poll_dmstatus POLL_FUEL DMSTATUS_ANYUNAVAIL 0 s
    (status_ok, q.2.2)

/-- gdbstub_be.c gdbstub_be_hart_reset: write dmcontrol with hartreset, then
poll dmstatus until anyhavereset clears. -/
def gdbstub_be_hart_reset (inited : Bool) (xlen : Nat) (haltreq : Bool) (s : BE) : Nat × BE :=
  if ¬ inited then (status_ok, s)
  else
    let d := fn_mk_dmcontrol haltreq false true false false 0 0 false false false true
    let s := dmi_write dm_addr_dmcontrol d s
    let q := poll_dmstatus POLL_FUEL DMSTATUS_ANYHAVERESET 0 s
    (status_ok, q.2.2)

/-- gdbstub_be.c gdbstub_be_verbosity: write n to the non-standard verbosity
DM register. -/
def gdbstub_be_verbosity (inited : Bool) (n : Nat) (s : BE) : Nat × BE :=
  if ¬ inited then (status_ok, s)
  else (status_ok, dmi_write dm_addr_verbosity n s)

/-- The result of the external ELF reader (Elf_read.c is outside the scope of
the back end proper): word width, address range, and the prepared byte
buffer. -/
structure Elf_Features where
  bitwidth : Nat
  min_addr : Nat
  max_addr : Nat
  mem_buf : Nat → Nat

/-- gdbstub_be.c gdbstub_be_elf_load: delegate to the ELF reader (modelled as
the elf argument since the reader is an external collaborator), record the
XLEN it found, and stream the image bytes to memory via
gdbstub_be_mem_write.  Returns (status, new xlen, state). -/
def gdbstub_be_elf_load (inited : Bool) (xlen : Nat) (elf : Option Elf_Features)
    (s : BE) : Nat × Nat × BE :=
  if ¬ inited then (status_ok, xlen, s)
  else
    match elf with
    | none => (status_err, xlen, s)
    | some f =>
      let xlen2 := f.bitwidth
      let n_bytes := f.max_addr - f.min_addr + 1
      let data := (List.range n_bytes).map (fun i => f.mem_buf (f.min_addr + i))
      let r := gdbstub_be_mem_write true xlen2 f.min_addr data s
      (r.1, xlen2, r.2)

/-- The tail shared by continue and step: write resumereq to dmcontrol. -/
def resume_dmcontrol (s : BE) : BE :=
  dmi_write dm_addr_dmcontrol
    (fn_mk_dmcontrol false true false false false 0 0 false false false true) s

/-- gdbstub_be.c gdbstub_be_continue: read dcsr; if its step bit is set, clear
it and write dcsr back; then write resumereq to dmcontrol. -/
def gdbstub_be_continue (inited : Bool) (xlen : Nat) (s : BE) : Nat × BE :=
  if ¬ inited then (status_ok, s)
  else
    let r := gdbstub_be_reg_read xlen csr_addr_dcsr s
    if r.1 = status_err then (status_err, r.2.2.2)
    else
      let dcsr := r.2.1 % 4294967296
      if fn_dcsr_step dcsr then
        let dcsr2 := fn_mk_dcsr (fn_dcsr_xdebugver dcsr) (fn_dcsr_ebreakm dcsr)
            (fn_dcsr_ebreaks dcsr) (fn_dcsr_ebreaku dcsr) (fn_dcsr_stepie dcsr)
            (fn_dcsr_stopcount dcsr) (fn_dcsr_stoptime dcsr) (fn_dcsr_cause dcsr)
            (fn_dcsr_mprven dcsr) (fn_dcsr_nmip dcsr) false (fn_dcsr_prv dcsr)
        let v := gdbstub_be_reg_write xlen csr_addr_dcsr dcsr2 r.2.2.2
        if v.1 = status_err then (status_err, v.2.2)
        else (status_ok, resume_dmcontrol v.2.2)
      else (status_ok, resume_dmcontrol r.2.2.2)

/-- gdbstub_be.c gdbstub_be_step: read dcsr; if its step bit is clear, set it
and write dcsr back; write resumereq to dmcontrol; poll dmstatus until
allhalted. -/
def gdbstub_be_step (inited : Bool) (xlen : Nat) (s : BE) : Nat × BE :=
  if ¬ inited then (status_ok, s)
  else
    let r := gdbstub_be_reg_read xlen csr_addr_dcsr s
    if r.1 = status_err then (status_err, r.2.2.2)
    else
      let dcsr := r.2.1 % 4294967296
      let afterResume : BE → Nat × BE := fun s =>
        let s := resume_dmcontrol s
        let q := poll_dmstatus POLL_FUEL DMSTATUS_ALLHALTED DMSTATUS_ALLHALTED s
        (status_ok, q.2.2)
      if ¬ fn_dcsr_step dcsr then
        let dcsr2 := fn_mk_dcsr (fn_dcsr_xdebugver dcsr) (fn_dcsr_ebreakm dcsr)
            (fn_dcsr_ebreaks dcsr) (fn_dcsr_ebreaku dcsr) (fn_dcsr_stepie dcsr)
            (fn_dcsr_stopcount dcsr) (fn_dcsr_stoptime dcsr) (fn_dcsr_cause dcsr)
            (fn_dcsr_mprven dcsr) (fn_dcsr_nmip dcsr) true (fn_dcsr_prv dcsr)
        let v := gdbstub_be_reg_write xlen csr_addr_dcsr dcsr2 r.2.2.2
        if v.1 = status_err then (status_err, v.2.2)
        else afterResume v.2.2
      else afterResume r.2.2.2

/-- gdbstub_be.c gdbstub_be_stop: write haltreq to dmcontrol, then poll
dmstatus until allhalted. -/
def gdbstub_be_stop (inited : Bool) (xlen : Nat) (s : BE) : Nat × BE :=
  if ¬ inited then (status_ok, s)
  else
    let d := fn_mk_dmcontrol true false false false false 0 0 false false false true
    let s := dmi_write dm_addr_dmcontrol d s
    let q := poll_dmstatus POLL_FUEL DMSTATUS_ALLHALTED DMSTATUS_ALLHALTED s
    (status_ok, q.2.2)

/-- gdbstub_be.c gdbstub_be_get_stop_reason: poll dmstatus for allhalted; if
still running return -2 (the CPU_TIMEOUT check is disabled in the source,
CPU_TIMEOUT being all-ones); once halted read dcsr and return its cause
field.  Returns (int status, stop reason if written, state). -/
def gdbstub_be_get_stop_reason (inited : Bool) (xlen : Nat) (s : BE) :
    Int × Option Nat × BE :=
  if ¬ inited then (Int.ofNat status_ok, none, s)
  else
    let q := poll_dmstatus POLL_FUEL DMSTATUS_ALLHALTED DMSTATUS_ALLHALTED s
    if q.2.1 &&& DMSTATUS_ALLHALTED = 0 then (-2, none, q.2.2)
    else
      let r := gdbstub_be_reg_read xlen csr_addr_dcsr q.2.2
      if r.1 = status_err then (-1, none, r.2.2.2)
      else (Int.ofNat status_ok, some (fn_dcsr_cause (r.2.1 % 4294967296)), r.2.2.2)

/-- gdbstub_be.c gdbstub_be_start_command: only writes a separator line into
the log file and bumps a counter; no DMI activity in either branch. -/
def gdbstub_be_start_command (inited : Bool) (xlen : Nat) (s : BE) : Nat × BE :=
  if ¬ inited then (status_ok, s)
  else (status_ok, s)

/-- gdbstub_be.c gdbstub_be_PC_read: read dpc (CSR 0x7b1); the out-value is
zeroed before the init guard, so it is 0 whenever the read is not
performed. -/
def gdbstub_be_PC_read (inited : Bool) (xlen : Nat) (s : BE) : Nat × Nat × BE :=
  if ¬ inited then (status_ok, 0, s)
  else
    let r := gdbstub_be_reg_read xlen csr_addr_dpc s
    (r.1, r.2.1, r.2.2.2)

/-- gdbstub_be.c gdbstub_be_GPR_read: the DM encodes GPR x as 0x1000 + x. -/
def gdbstub_be_GPR_read (inited : Bool) (xlen regnum : Nat) (s : BE) : Nat × Nat × BE :=
  if ¬ inited then (status_ok, 0, s)
  else
    let r := gdbstub_be_reg_read xlen (regnum + dm_command_access_reg_regno_gpr_0) s
    (r.1, r.2.1, r.2.2.2)

/-- gdbstub_be.c gdbstub_be_FPR_read: the DM encodes FPR x as 0x1020 + x. -/
def gdbstub_be_FPR_read (inited : Bool) (xlen regnum : Nat) (s : BE) : Nat × Nat × BE :=
  if ¬ inited then (status_ok, 0, s)
  else
    let r := gdbstub_be_reg_read xlen (regnum + dm_command_access_reg_regno_fpr_0) s
    (r.1, r.2.1, r.2.2.2)

/-- gdbstub_be.c gdbstub_be_CSR_read: the DM encodes CSR x as x. -/
def gdbstub_be_CSR_read (inited : Bool) (xlen regnum : Nat) (s : BE) : Nat × Nat × BE :=
  if ¬ inited then (status_ok, 0, s)
  else
    let r := gdbstub_be_reg_read xlen (regnum + dm_command_access_reg_regno_csr_0) s
    (r.1, r.2.1, r.2.2.2)

/-- gdbstub_be.c gdbstub_be_PC_write: write dpc (CSR 0x7b1). -/
def gdbstub_be_PC_write (inited : Bool) (xlen regval : Nat) (s : BE) : Nat × BE :=
  if ¬ inited then (status_ok, s)
  else
    let r := gdbstub_be_reg_write xlen csr_addr_dpc regval s
    (r.1, r.2.2)

/-- gdbstub_be.c gdbstub_be_GPR_write. -/
def gdbstub_be_GPR_write (inited : Bool) (xlen regnum regval : Nat) (s : BE) : Nat × BE :=
  if ¬ inited then (status_ok, s)
  else
    let r := gdbstub_be_reg_write xlen (regnum + dm_command_access_reg_regno_gpr_0) regval s
    (r.1, r.2.2)

/-- gdbstub_be.c gdbstub_be_FPR_write. -/
def gdbstub_be_FPR_write (inited : Bool) (xlen regnum regval : Nat) (s : BE) : Nat × BE :=
  if ¬ inited then (status_ok, s)
  else
    let r := gdbstub_be_reg_write xlen (regnum + dm_command_access_reg_regno_fpr_0) regval s
    (r.1, r.2.2)

/-- gdbstub_be.c gdbstub_be_CSR_write. -/
def gdbstub_be_CSR_write (inited : Bool) (xlen regnum regval : Nat) (s : BE) : Nat × BE :=
  if ¬ inited then (status_ok, s)
  else
    let r := gdbstub_be_reg_write xlen (regnum + dm_command_access_reg_regno_csr_0) regval s
    (r.1, r.2.2)

/-- gdbstub_be.c gdbstub_be_dmi_read (raw DMI read for debugging); the
out-value is zeroed before the init guard. -/
def gdbstub_be_dmi_read (inited : Bool) (dmi_addr : Nat) (s : BE) : Nat × Nat × BE :=
  if ¬ inited then (status_ok, 0, s)
  else
    let p := dmi_read dmi_addr s
    (status_ok, p.1, p.2)

/-- gdbstub_be.c gdbstub_be_dmi_write (raw DMI write for debugging). -/
def gdbstub_be_dmi_write (inited : Bool) (dmi_addr dmi_data : Nat) (s : BE) : Nat × BE :=
  if ¬ inited then (status_ok, s)
  else (status_ok, dmi_write dmi_addr dmi_data s)

/- ================================================================ -/
/- Trace predicate for the sbcs write-1-to-clear claim               -/
/- ================================================================ -/

/-- Every write of the trace that targets the sbcs DMI register carries a
value with the sbbusyerror bit (bit 22) set and the sberror field
(bits 14:12) equal to 0b111. -/
def logSbcsClean (l : List DmiOp) : Bool :=
  l.all fun op =>
    match op with
    | .wr a v => !(a == dm_addr_sbcs) || (((v >>> 22) &&& 1) == 1 && ((v >>> 12) &&& 7) == 7)
    | .rd _ _ => true

/- ================================================================ -/
/- Concrete sample states used to evaluate the model                 -/
/- ================================================================ -/

/-- A quiescent Debug Module over zeroed memory, halted hart, no sticky
errors. -/
def dm_quiet : DM where
  mem := fun _ => 0
  regs := fun _ => 0
  data0 := 0
  data1 := 0
  cmderr := 0
  sb_readonaddr := false
  sb_autoincrement := false
  sb_readondata := false
  sb_access := 0
  sbaddress := 0
  sbdata := 0
  dmstatus := 0x200
  dmcontrol := 0
  verbosity := 0

/-- A back-end view of the quiescent Debug Module with an empty trace. -/
def be_quiet : BE := ⟨dm_quiet, []⟩

/-- The quiescent Debug Module with a sticky abstract-command error
(cmderr = 2, not_supported) left over from a previous command. -/
def dm_sticky_err : DM := { dm_quiet with cmderr := 2 }

/- ****************************************************************  -/
/- ****************************************************************  -/
/- Theorems.                                                         -/
/- ****************************************************************  -/
/- ****************************************************************  -/

/- ================================================================ -/
/- Arithmetic helper lemmas                                          -/
/- ================================================================ -/

theorem and1_eq (x : Nat) : x &&& 1 = x % 2 := Nat.and_one_is_mod x

theorem and3_eq (x : Nat) : x &&& 3 = x % 4 := by
  simpa using Nat.and_pow_two_sub_one_eq_mod x 2

theorem and7_eq (x : Nat) : x &&& 7 = x % 8 := by
  simpa using Nat.and_pow_two_sub_one_eq_mod x 3

theorem and15_eq (x : Nat) : x &&& 15 = x % 16 := by
  simpa using Nat.and_pow_two_sub_one_eq_mod x 4

theorem and255_eq (x : Nat) : x &&& 255 = x % 256 := by
  simpa using Nat.and_pow_two_sub_one_eq_mod x 8

theorem and32ones_eq (x : Nat) : x &&& 4294967295 = x % 4294967296 := by
  simpa using Nat.and_pow_two_sub_one_eq_mod x 32

theorem shiftr_eq (x n : Nat) : x >>> n = x / 2 ^ n := Nat.shiftRight_eq_div_pow x n

theorem shiftl_eq (x n : Nat) : x <<< n = x * 2 ^ n := Nat.shiftLeft_eq x n

/-- Disjoint bitwise-or is addition: a shifted part or'd with a low part that
fits below the shift. -/
theorem shl_or_eq_add {k b : Nat} (a : Nat) (hb : b < 2 ^ k) :
    (a <<< k) ||| b = a * 2 ^ k + b := by
  rw [Nat.shiftLeft_eq, Nat.mul_comm a (2 ^ k)]
  exact (Nat.mul_add_lt_is_or hb a).symm

theorem or_shl_eq_add {k a : Nat} (b : Nat) (ha : a < 2 ^ k) :
    a ||| (b <<< k) = b * 2 ^ k + a := by
  rw [Nat.lor_comm]
  exact shl_or_eq_add b ha

theorem and15_lt (x : Nat) : x &&& 15 < 16 := by
  rw [and15_eq]; omega

/- ================================================================ -/
/- C8 : the data10 DMI address                                       -/
/- ================================================================ -/

/-- C8: the claim says the data registers data0..data11 occupy DMI addresses
0x04..0x0F with data10 at 0x0E, every data register having a distinct
address.  The source (src/RVDM.c line 65) instead defines
dm_addr_data10 = 0x0d, which collides with dm_addr_data9 and is not 0x0E:
the code contradicts the RISC-V Debug v0.13 address map it cites.  This
theorem evaluates the code's address map at the failing register. -/
theorem C8_data10_address_bug :
    dm_addr_data10 = 0x0d ∧ dm_addr_data10 = dm_addr_data9 ∧ dm_addr_data10 ≠ 0x0e := by
  refine ⟨rfl, rfl, by decide⟩

/- ================================================================ -/
/- C4 : the waiting_for_stop_reason flag                             -/
/- ================================================================ -/

/-- C4 counterexample: the claim says the flag is set exactly when the last
run-control command issued was continue or step and that no other command
sets it; but the '?' (query stop reason) handler sets the flag from false
to true when the back end reports the hart still running (sr = -2), and
'?' is not a run-control command. -/
theorem C4_counterexample :
    fe_flag_step (RSPEvent.evQuery (-2)) false = true ∧
    isRunControl (RSPEvent.evQuery (-2)) = false := by
  exact ⟨rfl, rfl⟩

/-- C4 amended: one dispatcher event changes waiting_for_stop_reason as
follows - it is cleared exactly by the clears_waiting events (a '?' query
or a waiting-loop poll that sends the T stop-reason packet, a '?' query
that gets a back-end error and answers with an error response, or a
waiting-loop poll whose timeout-triggered stop command fails); it is set
exactly by the sets_waiting events (a successful continue or step, a
successful interrupt stop, or a '?' query that finds the hart still
running); every other event, including the D detach command, leaves the
flag unchanged. -/
theorem C4_flag_characterization (e : RSPEvent) (flag : Bool) :
    fe_flag_step e flag =
      (if clears_waiting e then false else if sets_waiting e then true else flag) := by
  cases e with
  | evControlC st =>
    by_cases h : st = 1 <;>
      simp [fe_flag_step, handle_RSP_control_C_flag, sets_waiting, clears_waiting,
        status_ok, h]
  | evQuery sr =>
    by_cases h0 : sr = 0 <;> by_cases h1 : sr = -1 <;>
      simp [fe_flag_step, handle_RSP_stop_reason_flag, sets_waiting, clears_waiting,
        h0, h1]
  | evContinue p st =>
    by_cases hp : p <;> by_cases h : st = 1 <;>
      simp [fe_flag_step, handle_RSP_c_continue_flag, sets_waiting, clears_waiting,
        status_ok, hp, h]
  | evStep p st =>
    by_cases hp : p <;> by_cases h : st = 1 <;>
      simp [fe_flag_step, handle_RSP_s_step_flag, sets_waiting, clears_waiting,
        status_ok, hp, h]
  | evPollStop sr st =>
    cases flag <;> by_cases h0 : sr = 0 <;> by_cases h1 : sr = -1 <;>
      by_cases h : st = 1 <;>
      simp [fe_flag_step, main_loop_poll_flag, sets_waiting, clears_waiting,
        status_ok, h0, h1, h]
  | evShutdownD => simp [fe_flag_step, sets_waiting, clears_waiting]
  | evOther => simp [fe_flag_step, sets_waiting, clears_waiting]

/- ================================================================ -/
/- C6 : escape / unescape round trips                               -/
/- ================================================================ -/

theorem unescape_loop_escape (s : List Nat) :
    gdb_unescape_loop (gdb_escape s) = some s := by
  induction s with
  | nil => rfl
  | cons ch rest ih =>
    by_cases h : ch = 0x24 ∨ ch = 0x23 ∨ ch = 0x2a ∨ ch = 0x7d
    · have hxor : (ch ^^^ 0x20) ^^^ 0x20 = ch := by
        rw [Nat.xor_assoc, Nat.xor_self, Nat.xor_zero]
      simp [gdb_escape, h, gdb_unescape_loop, ih, hxor]
    · have hne : ch ≠ 0x7d := by
        intro hc; exact h (Or.inr (Or.inr (Or.inr hc)))
      have h3 : ¬ (ch = 0x24 ∨ ch = 0x23 ∨ ch = 0x2a) := by
        rintro (hc | hc | hc)
        · exact h (Or.inl hc)
        · exact h (Or.inr (Or.inl hc))
        · exact h (Or.inr (Or.inr (Or.inl hc)))
      rw [gdb_escape.eq_def]
      simp only [if_neg h]
      rw [gdb_unescape_loop.eq_def]
      simp [hne, ih]

theorem wf_unescape_loop (p : List Nat) (h : wellFormedEscaped p = true) :
    ∃ u, gdb_unescape_loop p = some u ∧ gdb_escape u = p := by
  induction p using wellFormedEscaped.induct with
  | case1 => exact ⟨[], rfl, rfl⟩
  | case2 => simp [wellFormedEscaped] at h
  | case3 c rest2 ih =>
    have h' : (decide ((c ^^^ 0x20) = 0x24 ∨ (c ^^^ 0x20) = 0x23 ∨
                 (c ^^^ 0x20) = 0x2a ∨ (c ^^^ 0x20) = 0x7d)
               && wellFormedEscaped rest2) = true := h
    simp only [Bool.and_eq_true, decide_eq_true_eq] at h'
    obtain ⟨hc, hrest⟩ := h'
    obtain ⟨u, hu, hesc⟩ := ih hrest
    refine ⟨(c ^^^ 0x20) :: u, ?_, ?_⟩
    · simp [gdb_unescape_loop, hu]
    · have hxor : (c ^^^ 0x20) ^^^ 0x20 = c := by
        rw [Nat.xor_assoc, Nat.xor_self, Nat.xor_zero]
      simp [gdb_escape, hc, hesc, hxor]
  | case4 ch rest hch ih =>
    rw [wellFormedEscaped.eq_def] at h
    simp only [if_neg hch, Bool.and_eq_true, decide_eq_true_eq] at h
    obtain ⟨hc, hrest⟩ := h
    obtain ⟨u, hu, hesc⟩ := ih hrest
    refine ⟨ch :: u, ?_, ?_⟩
    · rw [gdb_unescape_loop.eq_def]
      simp [hch, hu]
    · have hno : ¬ (ch = 0x24 ∨ ch = 0x23 ∨ ch = 0x2a ∨ ch = 0x7d) := by
        rintro (hx | hx | hx | hx)
        · exact hc.1 hx
        · exact hc.2.1 hx
        · exact hc.2.2 hx
        · exact hch hx
      simp [gdb_escape, hno, hesc]

/-- C6: unescape after escape returns the original bytes (up to the
terminating 0 byte gdb_unescape appends), and for every well-formed escaped
payload (exactly the bytes 0x24 dollar, 0x23 hash, 0x2a star, 0x7d brace
are escaped) escaping the unescaped bytes reproduces the payload. -/
theorem C6_escape_unescape_roundtrip :
    (∀ s : List Nat, gdb_unescape (gdb_escape s) = some (s ++ [0])) ∧
    (∀ p : List Nat, wellFormedEscaped p = true →
       ∃ u, gdb_unescape p = some (u ++ [0]) ∧ gdb_escape u = p) := by
  constructor
  · intro s
    simp [gdb_unescape, unescape_loop_escape]
  · intro p hp
    obtain ⟨u, hu, hesc⟩ := wf_unescape_loop p hp
    exact ⟨u, by simp [gdb_unescape, hu], hesc⟩

/-- C6 witness: the round trips evaluated at the concrete payload 0x24 0x61
(a dollar byte then 'a'), whose escaped form is 0x7d 0x04 0x61. -/
theorem C6_witness :
    gdb_unescape (gdb_escape [0x24, 0x61]) = some [0x24, 0x61, 0] ∧
    (gdb_unescape [0x7d, 0x04, 0x61]).isSome = true := by
  have h1 := C6_escape_unescape_roundtrip.1 [0x24, 0x61]
  have h2 := C6_escape_unescape_roundtrip.2 [0x7d, 0x04, 0x61] (by decide)
  obtain ⟨u, hu, -⟩ := h2
  exact ⟨by simpa using h1, by simp [hu]⟩

/- ================================================================ -/
/- C7 : the outgoing frame format                                    -/
/- ================================================================ -/

theorem gdb_checksum_foldl (c : Nat) (hc : c < 256) (l : List Nat) :
    l.foldl (fun c b => (c + b) % 256) c = (c + l.sum) % 256 := by
  induction l generalizing c with
  | nil => simp [Nat.mod_eq_of_lt hc]
  | cons b t ih =>
    simp only [List.foldl_cons, List.sum_cons]
    rw [ih _ (Nat.mod_lt _ (by norm_num)), Nat.mod_add_mod]
    ring_nf

theorem gdb_checksum_eq_sum (l : List Nat) : gdb_checksum l = l.sum % 256 := by
  unfold gdb_checksum
  rw [gdb_checksum_foldl 0 (by norm_num)]
  simp

theorem gdb_checksum_lt (l : List Nat) : gdb_checksum l < 256 := by
  rw [gdb_checksum_eq_sum]
  exact Nat.mod_lt _ (by norm_num)

theorem upper_digit_value (d : Nat) (h : d < 16) :
    value_of_hex_digit (upper_hexchars.getD d 0) = d := by
  interval_cases d <;> rfl

theorem upper_digit_isx (d : Nat) (h : d < 16) :
    isxdigit (upper_hexchars.getD d 0) = true := by
  interval_cases d <;> rfl

theorem upper_digit_mem (d : Nat) (h : d < 16) :
    upper_hexchars.getD d 0 ∈ upper_hexchars := by
  interval_cases d <;> decide

/-- C7 counterexample: the claim requires the two checksum characters on the
wire to be lowercase hex digits; the source formats them with the %02X
conversion, which is uppercase.  For the payload "OK" (0x4F 0x4B) the
escaped-payload checksum is 0x9A, so the emitted frame ends in the
uppercase digits "9A" (0x39 0x41), not the lowercase "9a" (0x39 0x61)
required by the claim. -/
theorem C7_counterexample :
    send_RSP_packet_wire [0x4F, 0x4B] = [0x24, 0x4F, 0x4B, 0x23, 0x39, 0x41] ∧
    send_RSP_packet_wire [0x4F, 0x4B] ≠ spec_frame_lower [0x4F, 0x4B] := by
  decide

/-- C7 amended: every frame emitted by send_RSP_packet_to_GDB is a dollar
byte, the escaped payload, a hash byte, and two UPPERCASE hex digits
(via the %02X conversion) encoding the unsigned 8-bit sum of the escaped
payload bytes; the two digits come from the hex-digit alphabet and decode
(with the receiver's case-insensitive parse) back to exactly that
checksum. -/
theorem C7_frame_format (buf : List Nat) :
    send_RSP_packet_wire buf =
      0x24 :: gdb_escape buf ++
        [0x23, upper_hexchars.getD (gdb_checksum (gdb_escape buf) / 16) 0,
               upper_hexchars.getD (gdb_checksum (gdb_escape buf) % 16) 0] ∧
    gdb_checksum (gdb_escape buf) = (gdb_escape buf).sum % 256 ∧
    strtoul2_hex (upper_hexchars.getD (gdb_checksum (gdb_escape buf) / 16) 0)
        (upper_hexchars.getD (gdb_checksum (gdb_escape buf) % 16) 0)
      = gdb_checksum (gdb_escape buf) ∧
    upper_hexchars.getD (gdb_checksum (gdb_escape buf) / 16) 0 ∈ upper_hexchars ∧
    upper_hexchars.getD (gdb_checksum (gdb_escape buf) % 16) 0 ∈ upper_hexchars := by
  have hlt := gdb_checksum_lt (gdb_escape buf)
  have hd1 : gdb_checksum (gdb_escape buf) / 16 < 16 := by omega
  have hd2 : gdb_checksum (gdb_escape buf) % 16 < 16 := by omega
  refine ⟨rfl, gdb_checksum_eq_sum _, ?_, upper_digit_mem _ hd1, upper_digit_mem _ hd2⟩
  unfold strtoul2_hex
  rw [if_pos (upper_digit_isx _ hd1), if_pos (upper_digit_isx _ hd2),
    upper_digit_value _ hd1, upper_digit_value _ hd2]
  omega

/- ================================================================ -/
/- C3 : the sliding-window receiver invariant                        -/
/- ================================================================ -/

theorem dropWhile_headD (p : Nat → Bool) (l : List Nat) (h : l.dropWhile p ≠ []) :
    p ((l.dropWhile p).headD 0) = false := by
  induction l with
  | nil => simp at h
  | cons a t ih =>
    by_cases hp : p a
    · rw [List.dropWhile_cons_of_pos hp] at h ⊢
      exact ih h
    · rw [List.dropWhile_cons_of_neg hp]
      simpa using hp

theorem getD_drop (w : List Nat) (e i : Nat) : (w.drop e).getD i 0 = w.getD (e + i) 0 := by
  induction w generalizing e with
  | nil => simp
  | cons a l ih =>
    cases e with
    | zero => simp
    | succ e =>
      rw [List.drop_succ_cons, ih, show e + 1 + i = (e + i) + 1 by omega]
      rfl

theorem headD_take (l : List Nat) (t : Nat) (h : l.take t ≠ []) :
    (l.take t).headD 0 = l.headD 0 := by
  cases l with
  | nil => simp at h
  | cons a as =>
    cases t with
    | zero => simp at h
    | succ t => rfl

theorem headD_drop (w : List Nat) (e : Nat) : (w.drop e).headD 0 = w.getD e 0 := by
  induction w generalizing e with
  | nil => cases e <;> rfl
  | cons a l ih =>
    cases e with
    | zero => rfl
    | succ e => exact ih e

theorem recv_consume_incomplete_window (w : List Nat)
    (h : (recv_consume w).1 = RecvResult.incomplete) :
    (recv_consume w).2 = w := by
  unfold recv_consume at h ⊢
  by_cases h1 : w = []
  · simp only [if_pos h1]
  · simp only [if_neg h1] at h ⊢
    by_cases h2 : w.headD 0 = control_C
    · simp only [if_pos h2] at h
      exact absurd h (by simp)
    · simp only [if_neg h2] at h ⊢
      rcases hfind : (w.drop 1).findIdx? (fun b => b == 0x23) with _ | i <;>
        simp only [hfind] at h ⊢
      by_cases h3 : w.length < i + 1 + 3
      · simp only [if_pos h3]
      · simp only [if_neg h3] at h ⊢
        by_cases h4 : gdb_checksum ((w.drop 1).take (i + 1 - 1)) ≠
            strtoul2_hex (w.getD (i + 1 + 1) 0) (w.getD (i + 1 + 2) 0)
        · simp only [if_pos h4] at h
          exact absurd h (by simp)
        · simp only [if_neg h4] at h
          rcases hu : gdb_unescape ((w.drop 1).take (i + 1 - 1)) with _ | u <;>
            simp only [hu] at h <;> exact absurd h (by simp)

theorem recv_consume_interrupt_window (w : List Nat)
    (h : (recv_consume w).1 = RecvResult.interrupt) :
    (recv_consume w).2 = w.drop 1 := by
  unfold recv_consume at h ⊢
  by_cases h1 : w = []
  · simp only [if_pos h1] at h
    exact absurd h (by simp)
  · simp only [if_neg h1] at h ⊢
    by_cases h2 : w.headD 0 = control_C
    · simp only [if_pos h2]
    · simp only [if_neg h2] at h ⊢
      rcases hfind : (w.drop 1).findIdx? (fun b => b == 0x23) with _ | i <;>
        simp only [hfind] at h ⊢
      · exact absurd h (by simp)
      · by_cases h3 : w.length < i + 1 + 3
        · simp only [if_pos h3] at h
          exact absurd h (by simp)
        · simp only [if_neg h3] at h ⊢
          by_cases h4 : gdb_checksum ((w.drop 1).take (i + 1 - 1)) ≠
              strtoul2_hex (w.getD (i + 1 + 1) 0) (w.getD (i + 1 + 2) 0)
          · simp only [if_pos h4] at h
            exact absurd h (by simp)
          · simp only [if_neg h4] at h
            rcases hu : gdb_unescape ((w.drop 1).take (i + 1 - 1)) with _ | u <;>
              simp only [hu] at h <;> exact absurd h (by simp)

theorem recv_consume_frame_window (w : List Nat)
    (h : (∃ p, (recv_consume w).1 = RecvResult.packet p) ∨
         (recv_consume w).1 = RecvResult.badChecksum ∨
         (recv_consume w).1 = RecvResult.fail) :
    ∃ e, 1 ≤ e ∧ e + 3 ≤ w.length ∧ w.getD e 0 = 0x23 ∧
      (recv_consume w).2 = (w.drop e).take (w.length - (e + 3)) := by
  unfold recv_consume at h ⊢
  by_cases h1 : w = []
  · simp only [if_pos h1] at h
    rcases h with ⟨p, hp⟩ | h | h <;> simp_all
  · simp only [if_neg h1] at h ⊢
    by_cases h2 : w.headD 0 = control_C
    · simp only [if_pos h2] at h
      rcases h with ⟨p, hp⟩ | h | h <;> simp_all
    · simp only [if_neg h2] at h ⊢
      rcases hfind : (w.drop 1).findIdx? (fun b => b == 0x23) with _ | i <;>
        simp only [hfind] at h ⊢
      · rcases h with ⟨p, hp⟩ | h | h <;> simp_all
      · obtain ⟨hlt, hp23, -⟩ := List.findIdx?_eq_some_iff_getElem.mp hfind
        have h23 : w.getD (i + 1) 0 = 0x23 := by
          have hh : (w.drop 1).getD i 0 = 0x23 := by
            rw [List.getD_eq_getElem _ 0 hlt]
            simpa using hp23
          rw [getD_drop, show 1 + i = i + 1 by omega] at hh
          exact hh
        by_cases h3 : w.length < i + 1 + 3
        · simp only [if_pos h3] at h
          rcases h with ⟨p, hp⟩ | h | h <;> simp_all
        · simp only [if_neg h3] at h ⊢
          refine ⟨i + 1, by omega, by omega, h23, ?_⟩
          by_cases h4 : gdb_checksum ((w.drop 1).take (i + 1 - 1)) ≠
              strtoul2_hex (w.getD (i + 1 + 1) 0) (w.getD (i + 1 + 2) 0)
          · simp only [if_pos h4]
          · simp only [if_neg h4]
            rcases hu : gdb_unescape ((w.drop 1).take (i + 1 - 1)) with _ | u <;>
              simp only [hu]

/-- C3 counterexample: the claim says that after every receive step a
non-empty window starts with 0x24 (dollar) or 0x03.  Feeding the receiver
the six bytes dollar 'a' hash '6' '1' 'Z' in one read delivers the frame
(payload 'a', checksum 0x61 correct), but the discard at
gdbstub_fe.c:817 copies from wire_buf[end] -- the hash -- while shrinking
the window by end + 3, so the residual window is exactly [0x23] (the hash
byte), which is neither 0x24 nor 0x03, and the trailing byte 'Z' (0x5A)
has been destroyed. -/
theorem C3_counterexample :
    (recv_RSP_step [] [0x24, 0x61, 0x23, 0x36, 0x31, 0x5A]).1 = RecvResult.packet [0x61, 0] ∧
    (recv_RSP_step [] [0x24, 0x61, 0x23, 0x36, 0x31, 0x5A]).2 = [0x23] ∧
    ¬ ((recv_RSP_step [] [0x24, 0x61, 0x23, 0x36, 0x31, 0x5A]).2 = [] ∨
       (recv_RSP_step [] [0x24, 0x61, 0x23, 0x36, 0x31, 0x5A]).2.headD 0 = 0x24 ∨
       (recv_RSP_step [] [0x24, 0x61, 0x23, 0x36, 0x31, 0x5A]).2.headD 0 = control_C) := by
  decide

/-- C3 amended: in every receive step the receiver first discards exactly the
leading bytes that are neither 0x24 nor 0x03 (after logging), so after
that scan byte 0 of the window, if present, is 0x24 or 0x03, and the step
is the consume function applied to the scanned window.  The claimed
invariant holds at return for every step that consumes nothing (result
incomplete, window unchanged), and consuming an interrupt drops exactly
the 0x03 byte.  But a step that consumes a complete frame (delivered
packet, bad checksum, or unescape failure) leaves as residual window the
e-offset suffix of the scanned window truncated by its last 3 bytes,
where e is the index of the terminating hash: whenever that residual is
non-empty its first byte is 0x23 (the hash), not 0x24 or 0x03, and the
last 3 bytes of the data trailing the frame are lost. -/
theorem C3_scan_invariant (window input : List Nat) :
    ((window ++ input).dropWhile (fun b => !(b == 0x24 || b == control_C)) ≠ [] →
      ((window ++ input).dropWhile (fun b => !(b == 0x24 || b == control_C))).headD 0 = 0x24 ∨
      ((window ++ input).dropWhile (fun b => !(b == 0x24 || b == control_C))).headD 0 = control_C) ∧
    recv_RSP_step window input =
      recv_consume ((window ++ input).dropWhile (fun b => !(b == 0x24 || b == control_C))) ∧
    ((recv_RSP_step window input).1 = RecvResult.incomplete →
      (recv_RSP_step window input).2 =
        (window ++ input).dropWhile (fun b => !(b == 0x24 || b == control_C))) ∧
    ((recv_RSP_step window input).1 = RecvResult.interrupt →
      (recv_RSP_step window input).2 =
        ((window ++ input).dropWhile (fun b => !(b == 0x24 || b == control_C))).drop 1) ∧
    (((∃ p, (recv_RSP_step window input).1 = RecvResult.packet p) ∨
      (recv_RSP_step window input).1 = RecvResult.badChecksum ∨
      (recv_RSP_step window input).1 = RecvResult.fail) →
      ∃ e, 1 ≤ e ∧
        e + 3 ≤ ((window ++ input).dropWhile (fun b => !(b == 0x24 || b == control_C))).length ∧
        ((window ++ input).dropWhile (fun b => !(b == 0x24 || b == control_C))).getD e 0 = 0x23 ∧
        (recv_RSP_step window input).2 =
          (((window ++ input).dropWhile (fun b => !(b == 0x24 || b == control_C))).drop e).take
            (((window ++ input).dropWhile (fun b => !(b == 0x24 || b == control_C))).length - (e + 3)) ∧
        ((recv_RSP_step window input).2 ≠ [] →
          (recv_RSP_step window input).2.headD 0 = 0x23)) ∧
    ((recv_RSP_step window input).1 = RecvResult.incomplete →
      ((recv_RSP_step window input).2 = [] ∨
       (recv_RSP_step window input).2.headD 0 = 0x24 ∨
       (recv_RSP_step window input).2.headD 0 = control_C)) := by
  set w := (window ++ input).dropWhile (fun b => !(b == 0x24 || b == control_C)) with hw
  have hhead : w ≠ [] → w.headD 0 = 0x24 ∨ w.headD 0 = control_C := by
    intro hne
    have := dropWhile_headD (fun b => !(b == 0x24 || b == control_C)) (window ++ input)
      (by rw [← hw]; exact hne)
    rw [← hw] at this
    simp only [Bool.not_eq_false', Bool.or_eq_true, beq_iff_eq] at this
    exact this
  have hstep : recv_RSP_step window input = recv_consume w := rfl
  have hinc : (recv_RSP_step window input).1 = RecvResult.incomplete →
      (recv_RSP_step window input).2 = w := by
    rw [hstep]
    exact recv_consume_incomplete_window w
  refine ⟨hhead, hstep, hinc, ?_, ?_, ?_⟩
  · rw [hstep]
    exact recv_consume_interrupt_window w
  · rw [hstep]
    intro hfr
    obtain ⟨e, he1, he2, he3, he4⟩ := recv_consume_frame_window w hfr
    refine ⟨e, he1, he2, he3, he4, fun hne => ?_⟩
    rw [he4] at hne ⊢
    rw [headD_take _ _ hne, headD_drop, he3]
  · intro h
    rw [hinc h]
    by_cases hne : w = []
    · exact Or.inl hne
    · exact Or.inr (hhead hne)

/-- C3 witness: the amended invariant applied to a concrete step that
receives one garbage byte 'X' followed by an incomplete frame start: the
result is incomplete and the window starts with the dollar byte. -/
theorem C3_witness :
    (recv_RSP_step [] [0x58, 0x24, 0x61]).2 = [] ∨
    (recv_RSP_step [] [0x58, 0x24, 0x61]).2.headD 0 = 0x24 ∨
    (recv_RSP_step [] [0x58, 0x24, 0x61]).2.headD 0 = control_C :=
  (C3_scan_invariant [] [0x58, 0x24, 0x61]).2.2.2.2.2 (by decide)

/- ================================================================ -/
/- C5 : hex encoding round trip                                      -/
/- ================================================================ -/

theorem hexchars_digit_value (d : Nat) (h : d < 16) :
    value_of_hex_digit (hexchars.getD d 0) = d := by
  interval_cases d <;> rfl

theorem hexchars_digit_isx (d : Nat) (h : d < 16) :
    isxdigit (hexchars.getD d 0) = true := by
  interval_cases d <;> rfl

/-- The combining loop of hex16_to_val reconstructs the low 8k bits of v from
a buffer whose entries are the hex digits of v in the little-endian byte
layout produced by val_to_hex16. -/
theorem hex16_pairs_mod (v : Nat) (buf : List Nat) (k : Nat)
    (hbuf : ∀ i, i < k →
      buf.getD (2 * i) 0 = hexchars.getD ((v >>> (8 * i + 4)) &&& 0xF) 0 ∧
      buf.getD (2 * i + 1) 0 = hexchars.getD ((v >>> (8 * i)) &&& 0xF) 0) :
    hex16_pairs buf k = v % 2 ^ (8 * k) := by
  induction k with
  | zero => simp [hex16_pairs, Nat.mod_one]
  | succ k ih =>
    have hk := hbuf k (by omega)
    have ihk := ih (fun i hi => hbuf i (by omega))
    have h84 : 2 * k * 4 + 4 = 8 * k + 4 := by ring
    have h80 : 2 * k * 4 = 8 * k := by ring
    rw [hex16_pairs, hk.1, hk.2, ihk, h84, h80,
      hexchars_digit_value _ (and15_lt _), hexchars_digit_value _ (and15_lt _)]
    have hA : v % 2 ^ (8 * k) < 2 ^ (8 * k) := Nat.mod_lt _ (Nat.pos_pow_of_pos _ (by norm_num))
    have hlo_shift : ((v >>> (8 * k)) &&& 15) <<< (8 * k) < 2 ^ (8 * k + 4) := by
      rw [shiftl_eq, pow_add]
      have hP : 0 < 2 ^ (8 * k) := Nat.pos_pow_of_pos _ (by norm_num)
      have h16 : (v >>> (8 * k)) &&& 15 < 16 := and15_lt _
      calc ((v >>> (8 * k)) &&& 15) * 2 ^ (8 * k) < 16 * 2 ^ (8 * k) :=
            (Nat.mul_lt_mul_right hP).mpr h16
        _ = 2 ^ (8 * k) * 2 ^ 4 := by ring
    rw [Nat.lor_assoc, shl_or_eq_add _ hlo_shift, shiftl_eq]
    have hsum : ((v >>> (8 * k + 4)) &&& 15) * 2 ^ (8 * k + 4) +
        ((v >>> (8 * k)) &&& 15) * 2 ^ (8 * k) =
        (16 * ((v >>> (8 * k + 4)) &&& 15) + ((v >>> (8 * k)) &&& 15)) * 2 ^ (8 * k) := by
      rw [pow_add]; ring
    rw [hsum, ← shiftl_eq, or_shl_eq_add _ hA]
    rw [and15_eq, and15_eq, shiftr_eq, shiftr_eq]
    have hd : v / 2 ^ (8 * k + 4) = v / 2 ^ (8 * k) / 16 := by
      rw [pow_add, Nat.div_div_eq_div_mul]; norm_num
    rw [hd]
    rw [show 8 * (k + 1) = 8 * k + 8 by ring]
    rw [show (2 : Nat) ^ (8 * k + 8) = 2 ^ (8 * k) * 256 by rw [pow_add]; norm_num]
    rw [Nat.mod_mul]
    have hW : 16 * (v / 2 ^ (8 * k) / 16 % 16) + v / 2 ^ (8 * k) % 16 =
        v / 2 ^ (8 * k) % 256 := by omega
    rw [hW]
    ring

theorem byte_hi_nibble (x : Nat) : (x &&& 255) >>> 4 = (x >>> 4) &&& 15 := by
  rw [and255_eq, and15_eq, shiftr_eq, shiftr_eq]
  norm_num
  omega

theorem byte_lo_nibble (x : Nat) : (x &&& 255) &&& 15 = x &&& 15 := by
  rw [and255_eq, and15_eq, and15_eq]
  omega

theorem spec_entry_hi (v s : Nat) :
    hexchars.getD (((v >>> s) &&& 255) >>> 4) 0 =
      hexchars.getD ((v >>> (s + 4)) &&& 15) 0 := by
  rw [byte_hi_nibble, Nat.shiftRight_add]

theorem spec_entry_lo (v s : Nat) :
    hexchars.getD (((v >>> s) &&& 255) &&& 15) 0 =
      hexchars.getD ((v >>> s) &&& 15) 0 := by
  rw [byte_lo_nibble]

theorem vth32_layout (v : Nat) : ∀ i, i < 4 →
    (val_to_hex16 v 32).getD (2 * i) 0 = hexchars.getD ((v >>> (8 * i + 4)) &&& 0xF) 0 ∧
    (val_to_hex16 v 32).getD (2 * i + 1) 0 = hexchars.getD ((v >>> (8 * i)) &&& 0xF) 0 := by
  intro i hi
  interval_cases i <;> exact ⟨rfl, rfl⟩

theorem vth64_layout (v : Nat) : ∀ i, i < 8 →
    (val_to_hex16 v 64).getD (2 * i) 0 = hexchars.getD ((v >>> (8 * i + 4)) &&& 0xF) 0 ∧
    (val_to_hex16 v 64).getD (2 * i + 1) 0 = hexchars.getD ((v >>> (8 * i)) &&& 0xF) 0 := by
  intro i hi
  interval_cases i <;> exact ⟨rfl, rfl⟩

theorem vth32_isx (v : Nat) :
    (List.range 8).all (fun j => isxdigit ((val_to_hex16 v 32).getD j 0)) = true := by
  rw [List.all_eq_true]
  intro j hj
  simp only [List.mem_range] at hj
  interval_cases j <;> exact hexchars_digit_isx _ (and15_lt _)

theorem vth64_isx (v : Nat) :
    (List.range 16).all (fun j => isxdigit ((val_to_hex16 v 64).getD j 0)) = true := by
  rw [List.all_eq_true]
  intro j hj
  simp only [List.mem_range] at hj
  interval_cases j <;> exact hexchars_digit_isx _ (and15_lt _)

theorem vth32_spec (v : Nat) : val_to_hex16 v 32 = spec_val_hex_le v 4 := by
  have h4 : List.range 4 = [0, 1, 2, 3] := rfl
  simp only [spec_val_hex_le, h4, List.flatMap_cons, List.flatMap_nil, List.append_nil,
    spec_entry_hi, spec_entry_lo]
  norm_num [val_to_hex16, Nat.shiftRight_zero]

theorem vth64_spec (v : Nat) : val_to_hex16 v 64 = spec_val_hex_le v 8 := by
  have h8 : List.range 8 = [0, 1, 2, 3, 4, 5, 6, 7] := rfl
  simp only [spec_val_hex_le, h8, List.flatMap_cons, List.flatMap_nil, List.append_nil,
    spec_entry_hi, spec_entry_lo]
  norm_num [val_to_hex16, Nat.shiftRight_zero]

/-- C5: for XLEN 32 and 64 and every value below 2^XLEN, parsing the hex
string produced by val_to_hex16 returns the value (hex16_to_val inverts
val_to_hex16), the string has exactly XLEN/4 digits, and it renders the
bytes of the value in little-endian order, two lowercase hex digits per
byte with the high nibble first, matching the spec-side rendering
spec_val_hex_le. -/
theorem C5_hex16_roundtrip (xlen v : Nat) (hx : xlen = 32 ∨ xlen = 64)
    (hv : v < 2 ^ xlen) :
    hex16_to_val (val_to_hex16 v xlen) xlen = some v ∧
    (val_to_hex16 v xlen).length = xlen / 4 ∧
    val_to_hex16 v xlen = spec_val_hex_le v (xlen / 8) := by
  rcases hx with h | h <;> subst h
  · refine ⟨?_, rfl, vth32_spec v⟩
    unfold hex16_to_val
    norm_num
    constructor
    · intro x hx
      interval_cases x <;> exact hexchars_digit_isx _ (and15_lt _)
    · rw [hex16_pairs_mod v _ 4 (vth32_layout v), show 8 * 4 = 32 from rfl]
      exact Nat.mod_eq_of_lt hv
  · refine ⟨?_, rfl, vth64_spec v⟩
    unfold hex16_to_val
    norm_num
    constructor
    · intro x hx
      interval_cases x <;> exact hexchars_digit_isx _ (and15_lt _)
    · rw [hex16_pairs_mod v _ 8 (vth64_layout v), show 8 * 8 = 64 from rfl]
      exact Nat.mod_eq_of_lt hv

/-- C5 witness: the round trip evaluated at XLEN 64 and the value 2^31
(the PC 0x80000000 of the spec's concrete scenario), whose rendering is
the 16 little-endian digits 0000008000000000. -/
theorem C5_witness :
    hex16_to_val (val_to_hex16 2147483648 64) 64 = some 2147483648 ∧
    (val_to_hex16 2147483648 64).length = 64 / 4 ∧
    val_to_hex16 2147483648 64 = spec_val_hex_le 2147483648 (64 / 8) :=
  C5_hex16_roundtrip 64 2147483648 (Or.inr rfl) (by norm_num)

/- ================================================================ -/
/- C1 : gdbstub_be_reg_write on a non-zero cmderr                    -/
/- ================================================================ -/

/-- C1: the claim requires a register write that observes a non-zero
abstractcs.cmderr to clear it with a write-1-to-clear of 0b111 and then
return status_err carrying the cmderr.  Evaluating gdbstub_be_reg_write
(for both XLEN 32 and 64) against a Debug Module holding a sticky
cmderr = 2: the operation does record the cmderr, does issue the W1C
write of cmderr = 0b111 to abstractcs (the error is cleared), but then
returns status_ok - both branches of the final if in the source return
status_ok (gdbstub_be.c lines 324-330), contradicting the claim's
required Err result. -/
theorem C1_reg_write_ok_on_error :
    ((gdbstub_be_reg_write 32 0x1000 5 ⟨dm_sticky_err, []⟩).1 = status_ok ∧
     (gdbstub_be_reg_write 32 0x1000 5 ⟨dm_sticky_err, []⟩).2.1 = 2 ∧
     (gdbstub_be_reg_write 32 0x1000 5 ⟨dm_sticky_err, []⟩).2.2.dm.cmderr = 0 ∧
     DmiOp.wr dm_addr_abstractcs (fn_mk_abstractcs DM_ABSTRACTCS_CMDERR_OTHER) ∈
       (gdbstub_be_reg_write 32 0x1000 5 ⟨dm_sticky_err, []⟩).2.2.log) ∧
    ((gdbstub_be_reg_write 64 0x1000 5 ⟨dm_sticky_err, []⟩).1 = status_ok ∧
     (gdbstub_be_reg_write 64 0x1000 5 ⟨dm_sticky_err, []⟩).2.1 = 2 ∧
     (gdbstub_be_reg_write 64 0x1000 5 ⟨dm_sticky_err, []⟩).2.2.dm.cmderr = 0 ∧
     DmiOp.wr dm_addr_abstractcs (fn_mk_abstractcs DM_ABSTRACTCS_CMDERR_OTHER) ∈
       (gdbstub_be_reg_write 64 0x1000 5 ⟨dm_sticky_err, []⟩).2.2.log) := by
  decide

/- ================================================================ -/
/- C9 : operations before init are silent no-ops                     -/
/- ================================================================ -/

/-- C9: every public back-end operation invoked before gdbstub_be_init has
set the initialized flag returns status_ok, issues no DMI read or write
(the trace is unchanged), and leaves the Debug Module state untouched;
out-parameters that the source zeroes before the guard come back 0, all
others untouched. -/
theorem C9_uninitialized_noop :
    (∀ xlen s, gdbstub_be_dm_reset false xlen s = (status_ok, s)) ∧
    (∀ xlen h s, gdbstub_be_ndm_reset false xlen h s = (status_ok, s)) ∧
    (∀ xlen h s, gdbstub_be_hart_reset false xlen h s = (status_ok, s)) ∧
    (∀ n s, gdbstub_be_verbosity false n s = (status_ok, s)) ∧
    (∀ xlen elf s, gdbstub_be_elf_load false xlen elf s = (status_ok, xlen, s)) ∧
    (∀ xlen s, gdbstub_be_continue false xlen s = (status_ok, s)) ∧
    (∀ xlen s, gdbstub_be_step false xlen s = (status_ok, s)) ∧
    (∀ xlen s, gdbstub_be_stop false xlen s = (status_ok, s)) ∧
    (∀ xlen s, gdbstub_be_get_stop_reason false xlen s = (Int.ofNat status_ok, none, s)) ∧
    (∀ xlen s, gdbstub_be_start_command false xlen s = (status_ok, s)) ∧
    (∀ xlen s, gdbstub_be_PC_read false xlen s = (status_ok, 0, s)) ∧
    (∀ xlen r s, gdbstub_be_GPR_read false xlen r s = (status_ok, 0, s)) ∧
    (∀ xlen r s, gdbstub_be_FPR_read false xlen r s = (status_ok, 0, s)) ∧
    (∀ xlen r s, gdbstub_be_CSR_read false xlen r s = (status_ok, 0, s)) ∧
    (∀ xlen v s, gdbstub_be_PC_write false xlen v s = (status_ok, s)) ∧
    (∀ xlen r v s, gdbstub_be_GPR_write false xlen r v s = (status_ok, s)) ∧
    (∀ xlen r v s, gdbstub_be_FPR_write false xlen r v s = (status_ok, s)) ∧
    (∀ xlen r v s, gdbstub_be_CSR_write false xlen r v s = (status_ok, s)) ∧
    (∀ xlen a l s, gdbstub_be_mem_read_subword false xlen a l s = (status_ok, none, s)) ∧
    (∀ xlen a l s, gdbstub_be_mem_read false xlen a l s = (status_ok, [], s)) ∧
    (∀ xlen a d l s, gdbstub_be_mem_write_subword false xlen a d l s = (status_ok, s)) ∧
    (∀ xlen a d s, gdbstub_be_mem_write false xlen a d s = (status_ok, s)) ∧
    (∀ a s, gdbstub_be_dmi_read false a s = (status_ok, 0, s)) ∧
    (∀ a v s, gdbstub_be_dmi_write false a v s = (status_ok, s)) := by
  refine ⟨fun _ _ => rfl, fun _ _ _ => rfl, fun _ _ _ => rfl, fun _ _ => rfl,
    fun _ _ _ => rfl, fun _ _ => rfl, fun _ _ => rfl, fun _ _ => rfl, fun _ _ => rfl,
    fun _ _ => rfl, fun _ _ => rfl, fun _ _ _ => rfl, fun _ _ _ => rfl, fun _ _ _ => rfl,
    fun _ _ _ => rfl, fun _ _ _ _ => rfl, fun _ _ _ _ => rfl, fun _ _ _ _ => rfl,
    fun _ _ _ _ => rfl, fun _ _ _ _ => rfl, fun _ _ _ _ _ => rfl, fun _ _ _ _ => rfl,
    fun _ _ => rfl, fun _ _ _ => rfl⟩

/- ================================================================ -/
/- C10 : every sbcs write clears the sticky error bits               -/
/- ================================================================ -/

theorem clean_tuple3 {α : Type _} {β : Type _} (x : α) (y : β) (t : BE)
    (h : logSbcsClean t.log = true) : logSbcsClean (x, y, t).2.2.log = true := h

theorem clean_tuple2 {α : Type _} (x : α) (t : BE)
    (h : logSbcsClean t.log = true) : logSbcsClean (x, t).2.log = true := h

theorem logSbcsClean_append (l1 l2 : List DmiOp) :
    logSbcsClean (l1 ++ l2) = (logSbcsClean l1 && logSbcsClean l2) :=
  List.all_append

theorem clean_dmi_read (a : Nat) (s : BE) (h : logSbcsClean s.log = true) :
    logSbcsClean (dmi_read a s).2.log = true := by
  have he : (dmi_read a s).2.log = s.log ++ [DmiOp.rd a (dm_step_read s.dm a).1] := rfl
  rw [he, logSbcsClean_append, h]
  rfl

theorem clean_dmi_write (a v : Nat) (s : BE) (h : logSbcsClean s.log = true)
    (hv : a = dm_addr_sbcs → ((v >>> 22) &&& 1) = 1 ∧ ((v >>> 12) &&& 7) = 7) :
    logSbcsClean (dmi_write a v s).log = true := by
  have he : (dmi_write a v s).log = s.log ++ [DmiOp.wr a v] := rfl
  rw [he, logSbcsClean_append, h, Bool.true_and]
  by_cases ha : a = dm_addr_sbcs
  · obtain ⟨h1, h2⟩ := hv ha
    have h1m : v >>> 22 % 2 = 1 := by rw [← Nat.and_one_is_mod]; exact h1
    simp [logSbcsClean, ha, h1m, h2, Nat.and_one_is_mod]
  · simp [logSbcsClean, ha]

/-- Every sbcs value the back end composes has sbbusyerror (true) in bit 22
and sberror = 0b111 in bits 14:12, whatever the other fields are. -/
theorem sbcs_w1c_clean (roa ai rod : Bool) (acc : Nat) :
    ((fn_mk_sbcs true roa acc ai rod DM_SBERROR_UNDEF7_W1C) >>> 22) &&& 1 = 1 ∧
    ((fn_mk_sbcs true roa acc ai rod DM_SBERROR_UNDEF7_W1C) >>> 12) &&& 7 = 7 := by
  have h7 : acc &&& 7 ≤ 7 := Nat.and_le_right
  simp only [fn_mk_sbcs, DM_SBERROR_UNDEF7_W1C]
  generalize hT : acc &&& 7 = t at h7 ⊢
  interval_cases t <;> rcases roa <;> rcases ai <;> rcases rod <;> decide

theorem clean_wr_sbcs (roa ai rod : Bool) (acc : Nat) (s : BE)
    (h : logSbcsClean s.log = true) :
    logSbcsClean (dmi_write dm_addr_sbcs
      (fn_mk_sbcs true roa acc ai rod DM_SBERROR_UNDEF7_W1C) s).log = true :=
  clean_dmi_write _ _ _ h (fun _ => sbcs_w1c_clean roa ai rod acc)

theorem clean_wr_sbaddress0 (v : Nat) (s : BE) (h : logSbcsClean s.log = true) :
    logSbcsClean (dmi_write dm_addr_sbaddress0 v s).log = true :=
  clean_dmi_write _ _ _ h (fun hc => absurd hc (by decide))

theorem clean_wr_sbaddress1 (v : Nat) (s : BE) (h : logSbcsClean s.log = true) :
    logSbcsClean (dmi_write dm_addr_sbaddress1 v s).log = true :=
  clean_dmi_write _ _ _ h (fun hc => absurd hc (by decide))

theorem clean_wr_sbdata0 (v : Nat) (s : BE) (h : logSbcsClean s.log = true) :
    logSbcsClean (dmi_write dm_addr_sbdata0 v s).log = true :=
  clean_dmi_write _ _ _ h (fun hc => absurd hc (by decide))

theorem clean_wait (fuel : Nat) (s : BE) (h : logSbcsClean s.log = true) :
    logSbcsClean (gdbstub_be_wait_for_sb_nonbusy fuel s).2.2.log = true := by
  induction fuel generalizing s with
  | zero => exact h
  | succ n ih =>
    rw [gdbstub_be_wait_for_sb_nonbusy]
    by_cases hb : ¬ fn_sbcs_sbbusy (dmi_read dm_addr_sbcs s).1
    · simp only [if_pos hb]
      exact clean_dmi_read _ _ h
    · simp only [if_neg hb]
      exact ih _ (clean_dmi_read _ _ h)

theorem clean_mem32_read (xlen a : Nat) (s : BE) (h : logSbcsClean s.log = true) :
    logSbcsClean (gdbstub_be_mem32_read xlen a s).2.2.log = true := by
  dsimp only [gdbstub_be_mem32_read]
  split_ifs
  · exact clean_tuple3 _ _ _ h
  · exact clean_tuple3 _ _ _ (clean_wait _ _ h)
  · exact clean_tuple3 _ _ _ (clean_wait _ _ (clean_wr_sbaddress0 _ _
      (clean_wr_sbaddress1 _ _ (clean_wr_sbcs _ _ _ _ _ (clean_wait _ _ h)))))
  · exact clean_tuple3 _ _ _ (clean_dmi_read _ _ (clean_wait _ _ (clean_wr_sbaddress0 _ _
      (clean_wr_sbaddress1 _ _ (clean_wr_sbcs _ _ _ _ _ (clean_wait _ _ h))))))
  · exact clean_tuple3 _ _ _ (clean_wait _ _ (clean_wr_sbaddress0 _ _
      (clean_wr_sbcs _ _ _ _ _ (clean_wait _ _ h))))
  · exact clean_tuple3 _ _ _ (clean_dmi_read _ _ (clean_wait _ _ (clean_wr_sbaddress0 _ _
      (clean_wr_sbcs _ _ _ _ _ (clean_wait _ _ h)))))

theorem clean_mem32_write (xlen a d : Nat) (s : BE) (h : logSbcsClean s.log = true) :
    logSbcsClean (gdbstub_be_mem32_write xlen a d s).2.log = true := by
  dsimp only [gdbstub_be_mem32_write]
  split_ifs
  · exact clean_tuple2 _ _ h
  · exact clean_tuple2 _ _ (clean_wait _ _ h)
  · exact clean_tuple2 _ _ (clean_wait _ _ (clean_wr_sbcs _ _ _ _ _ (clean_wait _ _ h)))
  · exact clean_tuple2 _ _ (clean_wait _ _ (clean_wr_sbaddress0 _ _
      (clean_wr_sbaddress1 _ _ (clean_wait _ _ (clean_wr_sbcs _ _ _ _ _
        (clean_wait _ _ h))))))
  · exact clean_tuple2 _ _ (clean_wr_sbdata0 _ _ (clean_wait _ _ (clean_wr_sbaddress0 _ _
      (clean_wr_sbaddress1 _ _ (clean_wait _ _ (clean_wr_sbcs _ _ _ _ _
        (clean_wait _ _ h)))))))
  · exact clean_tuple2 _ _ (clean_wait _ _ (clean_wr_sbaddress0 _ _
      (clean_wait _ _ (clean_wr_sbcs _ _ _ _ _ (clean_wait _ _ h)))))
  · exact clean_tuple2 _ _ (clean_wr_sbdata0 _ _ (clean_wait _ _ (clean_wr_sbaddress0 _ _
      (clean_wait _ _ (clean_wr_sbcs _ _ _ _ _ (clean_wait _ _ h))))))

theorem clean_mem_read_words (n addr4 addr addr_lim : Nat) (acc : List Nat) (s : BE)
    (h : logSbcsClean s.log = true) :
    logSbcsClean (mem_read_words n addr4 addr addr_lim acc s).2.2.log = true := by
  induction n generalizing addr4 acc s with
  | zero => exact h
  | succ n ih =>
    dsimp only [mem_read_words]
    split_ifs
    · exact clean_tuple3 _ _ _ (clean_wait _ _ h)
    all_goals exact ih _ _ _ (clean_dmi_read _ _ (clean_wait _ _ h))

theorem clean_mem_write_words (n addr4 : Nat) (data : List Nat) (jd : Nat) (s : BE)
    (h : logSbcsClean s.log = true) :
    logSbcsClean (mem_write_words n addr4 data jd s).log = true := by
  induction n generalizing addr4 jd s with
  | zero => exact h
  | succ n ih =>
    dsimp only [mem_write_words]
    exact ih _ _ _ (clean_wr_sbdata0 _ _ h)

theorem clean_mem_read (i : Bool) (xlen a l : Nat) (s : BE)
    (h : logSbcsClean s.log = true) :
    logSbcsClean (gdbstub_be_mem_read i xlen a l s).2.2.log = true := by
  dsimp only [gdbstub_be_mem_read]
  split_ifs
  · exact clean_tuple3 _ _ _ h
  · exact clean_tuple3 _ _ _ (clean_wait _ _ h)
  · exact clean_tuple3 _ _ _ (clean_wait _ _ (clean_wr_sbcs _ _ _ _ _ (clean_wait _ _ h)))
  · exact clean_mem_read_words _ _ _ _ _ _ (clean_wr_sbaddress0 _ _
      (clean_wr_sbaddress1 _ _ (clean_wait _ _ (clean_wr_sbcs _ _ _ _ _
        (clean_wait _ _ h)))))
  · exact clean_mem_read_words _ _ _ _ _ _ (clean_wr_sbaddress0 _ _
      (clean_wait _ _ (clean_wr_sbcs _ _ _ _ _ (clean_wait _ _ h))))
  · exact clean_tuple3 _ _ _ h

theorem clean_mem_write_main (xlen : Nat) (data : List Nat)
    (addr4 jd addr_lim addr_lim4 : Nat) (s : BE) (h : logSbcsClean s.log = true) :
    logSbcsClean (mem_write_main xlen data addr4 jd addr_lim addr_lim4 s).2.log = true := by
  dsimp only [mem_write_main]
  split_ifs
  · exact clean_tuple2 _ _ (clean_wait _ _ h)
  · exact clean_tuple2 _ _ (clean_wait _ _ (clean_wr_sbcs _ _ _ _ _ (clean_wait _ _ h)))
  all_goals first
    | exact clean_tuple2 _ _ (clean_wait _ _ (clean_mem32_write _ _ _ _ (clean_mem32_read _ _ _
        (clean_mem_write_words _ _ _ _ _ (clean_wr_sbaddress0 _ _
          (clean_wr_sbaddress1 _ _ (clean_wait _ _ (clean_wr_sbcs _ _ _ _ _
            (clean_wait _ _ h)))))))))
    | exact clean_tuple2 _ _ (clean_wait _ _ (clean_mem32_write _ _ _ _ (clean_mem32_read _ _ _
        (clean_mem_write_words _ _ _ _ _ (clean_wr_sbaddress0 _ _
          (clean_wait _ _ (clean_wr_sbcs _ _ _ _ _ (clean_wait _ _ h))))))))
    | exact clean_tuple2 _ _ (clean_wait _ _ (clean_mem_write_words _ _ _ _ _
        (clean_wr_sbaddress0 _ _ (clean_wr_sbaddress1 _ _ (clean_wait _ _
          (clean_wr_sbcs _ _ _ _ _ (clean_wait _ _ h)))))))
    | exact clean_tuple2 _ _ (clean_wait _ _ (clean_mem_write_words _ _ _ _ _
        (clean_wr_sbaddress0 _ _ (clean_wait _ _ (clean_wr_sbcs _ _ _ _ _
          (clean_wait _ _ h))))))

theorem clean_mem_write (i : Bool) (xlen a : Nat) (data : List Nat) (s : BE)
    (h : logSbcsClean s.log = true) :
    logSbcsClean (gdbstub_be_mem_write i xlen a data s).2.log = true := by
  dsimp only [gdbstub_be_mem_write]
  split_ifs
  · exact clean_tuple2 _ _ h
  · exact clean_tuple2 _ _ (clean_mem32_read _ _ _ h)
  · exact clean_tuple2 _ _ (clean_mem32_write _ _ _ _ (clean_mem32_read _ _ _ h))
  · exact clean_mem_write_main _ _ _ _ _ _ _
      (clean_mem32_write _ _ _ _ (clean_mem32_read _ _ _ h))
  · exact clean_mem_write_main _ _ _ _ _ _ _ h
  · exact clean_tuple2 _ _ h

theorem clean_mem_read_subword (i : Bool) (xlen a l : Nat) (s : BE)
    (h : logSbcsClean s.log = true) :
    logSbcsClean (gdbstub_be_mem_read_subword i xlen a l s).2.2.log = true := by
  dsimp only [gdbstub_be_mem_read_subword]
  repeat' split
  · exact clean_tuple3 _ _ _ h
  · exact clean_tuple3 _ _ _ h
  · exact clean_tuple3 _ _ _ h
  · exact clean_tuple3 _ _ _ (clean_wait _ _ h)
  · exact clean_tuple3 _ _ _ (clean_wait _ _ (clean_wr_sbcs _ _ _ _ _ (clean_wait _ _ h)))
  · exact clean_tuple3 _ _ _ (clean_wait _ _ (clean_wr_sbaddress0 _ _
      (clean_wr_sbaddress1 _ _ (clean_wait _ _ (clean_wr_sbcs _ _ _ _ _
        (clean_wait _ _ h))))))
  · exact clean_tuple3 _ _ _ (clean_dmi_read _ _ (clean_wait _ _ (clean_wr_sbaddress0 _ _
      (clean_wr_sbaddress1 _ _ (clean_wait _ _ (clean_wr_sbcs _ _ _ _ _
        (clean_wait _ _ h)))))))
  · exact clean_tuple3 _ _ _ (clean_wait _ _ (clean_wr_sbaddress0 _ _
      (clean_wait _ _ (clean_wr_sbcs _ _ _ _ _ (clean_wait _ _ h)))))
  · exact clean_tuple3 _ _ _ (clean_dmi_read _ _ (clean_wait _ _ (clean_wr_sbaddress0 _ _
      (clean_wait _ _ (clean_wr_sbcs _ _ _ _ _ (clean_wait _ _ h))))))

theorem clean_mem_write_subword (i : Bool) (xlen a d l : Nat) (s : BE)
    (h : logSbcsClean s.log = true) :
    logSbcsClean (gdbstub_be_mem_write_subword i xlen a d l s).2.log = true := by
  dsimp only [gdbstub_be_mem_write_subword]
  repeat' split
  · exact clean_tuple2 _ _ h
  · exact clean_tuple2 _ _ h
  · exact clean_tuple2 _ _ h
  · exact clean_tuple2 _ _ (clean_wait _ _ h)
  · exact clean_tuple2 _ _ (clean_wait _ _ (clean_wr_sbcs _ _ _ _ _ (clean_wait _ _ h)))
  · exact clean_tuple2 _ _ (clean_wait _ _ (clean_wr_sbdata0 _ _ (clean_wr_sbaddress0 _ _
      (clean_wr_sbaddress1 _ _ (clean_wait _ _ (clean_wr_sbcs _ _ _ _ _
        (clean_wait _ _ h)))))))
  · exact clean_tuple2 _ _ (clean_wait _ _ (clean_wr_sbdata0 _ _ (clean_wr_sbaddress0 _ _
      (clean_wait _ _ (clean_wr_sbcs _ _ _ _ _ (clean_wait _ _ h))))))


/-- C10: starting from any trace in which every write to the sbcs DMI
register carries sbbusyerror = 1 (bit 22) and sberror = 0b111
(bits 14:12), each memory-access operation of the back end (the mem32
read/write helpers, mem_read, mem_write, and the subword variants)
preserves that property: every sbcs value it writes W1C-clears both
sticky System-Bus error fields. -/
theorem C10_sbcs_writes_w1c :
    (∀ xlen a s, logSbcsClean s.log = true →
      logSbcsClean (gdbstub_be_mem32_read xlen a s).2.2.log = true) ∧
    (∀ xlen a d s, logSbcsClean s.log = true →
      logSbcsClean (gdbstub_be_mem32_write xlen a d s).2.log = true) ∧
    (∀ i xlen a l s, logSbcsClean s.log = true →
      logSbcsClean (gdbstub_be_mem_read i xlen a l s).2.2.log = true) ∧
    (∀ i xlen a d s, logSbcsClean s.log = true →
      logSbcsClean (gdbstub_be_mem_write i xlen a d s).2.log = true) ∧
    (∀ i xlen a l s, logSbcsClean s.log = true →
      logSbcsClean (gdbstub_be_mem_read_subword i xlen a l s).2.2.log = true) ∧
    (∀ i xlen a d l s, logSbcsClean s.log = true →
      logSbcsClean (gdbstub_be_mem_write_subword i xlen a d l s).2.log = true) :=
  ⟨fun _ _ _ h => clean_mem32_read _ _ _ h,
   fun _ _ _ _ h => clean_mem32_write _ _ _ _ h,
   fun _ _ _ _ _ h => clean_mem_read _ _ _ _ _ h,
   fun _ _ _ _ _ h => clean_mem_write _ _ _ _ _ h,
   fun _ _ _ _ _ h => clean_mem_read_subword _ _ _ _ _ h,
   fun _ _ _ _ _ _ h => clean_mem_write_subword _ _ _ _ _ _ h⟩

/-- C10 witness: the preservation property applied to a concrete unaligned
5-byte memory write on the quiescet Debug Module with an empty (hence
clean) trace; the resulting trace checks clean. -/
theorem C10_witness :
    logSbcsClean (gdbstub_be_mem_write true 32 2 [1, 2, 3, 4, 5] be_quiet).2.log = true :=
  C10_sbcs_writes_w1c.2.2.2.1 true 32 2 [1, 2, 3, 4, 5] be_quiet (by decide)


theorem word_of_bytes_eq_add (b0 b1 b2 b3 : Nat) (h0 : b0 < 256) (h1 : b1 < 256)
    (h2 : b2 < 256) :
    word_of_bytes b0 b1 b2 b3 = b0 + 256 * b1 + 65536 * b2 + 16777216 * b3 := by
  unfold word_of_bytes
  rw [or_shl_eq_add b1 (show b0 < 2 ^ 8 from h0)]
  rw [or_shl_eq_add b2 (show b1 * 2 ^ 8 + b0 < 2 ^ 16 by omega)]
  rw [or_shl_eq_add b3 (show b2 * 2 ^ 16 + (b1 * 2 ^ 8 + b0) < 2 ^ 24 by omega)]
  ring

theorem dm_read_bytes_four (m : Nat → Nat) (a : Nat) :
    dm_read_bytes m a 4 =
      m a % 256 + 256 * (m (a + 1) % 256) + 65536 * (m (a + 2) % 256)
        + 16777216 * (m (a + 3) % 256) := by
  simp only [dm_read_bytes, dm_read8]
  rw [show a + 1 + 1 = a + 2 by omega]
  rw [show a + 2 + 1 = a + 3 by omega]
  ring

theorem dm_write_bytes_four (m : Nat → Nat) (a v x : Nat) :
    dm_write_bytes m a v 4 x =
      if x = a then v % 256
      else if x = a + 1 then v / 256 % 256
      else if x = a + 2 then v / 65536 % 256
      else if x = a + 3 then v / 16777216 % 256
      else m x := by
  simp only [dm_write_bytes, dm_write8]
  rw [show a + 1 + 1 = a + 2 by omega]
  rw [show a + 2 + 1 = a + 3 by omega]
  split_ifs <;> omega


theorem word_byte_of_bytes (b0 b1 b2 b3 : Nat) (h0 : b0 < 256) (h1 : b1 < 256)
    (h2 : b2 < 256) (h3 : b3 < 256) :
    word_byte (word_of_bytes b0 b1 b2 b3) 0 = b0 ∧
    word_byte (word_of_bytes b0 b1 b2 b3) 1 = b1 ∧
    word_byte (word_of_bytes b0 b1 b2 b3) 2 = b2 ∧
    word_byte (word_of_bytes b0 b1 b2 b3) 3 = b3 := by
  rw [word_of_bytes_eq_add b0 b1 b2 b3 h0 h1 h2]
  unfold word_byte
  simp only [shiftr_eq, and255_eq]
  norm_num
  omega

theorem word_byte_read_bytes (m : Nat → Nat) (a i : Nat) (hi : i < 4) :
    word_byte (dm_read_bytes m a 4) i = m (a + i) % 256 := by
  rw [dm_read_bytes_four]
  unfold word_byte
  rw [shiftr_eq, and255_eq]
  interval_cases i <;> norm_num <;> omega


/- DMI / DM step evaluation lemmas over a symbolic state.                -/

theorem dmi_write_dm (a v : Nat) (s : BE) :
    (dmi_write a v s).dm = dm_step_write s.dm a v := rfl

theorem dmi_read_sbcs_fst (s : BE) :
    (dmi_read dm_addr_sbcs s).1 = dm_sbcs_value s.dm := rfl

theorem dmi_read_sbcs_dm (s : BE) :
    (dmi_read dm_addr_sbcs s).2.dm = s.dm := rfl

theorem dmi_read_sbdata0_fst (s : BE) :
    (dmi_read dm_addr_sbdata0 s).1 = s.dm.sbdata := by
  unfold dmi_read dm_step_read
  split_ifs <;> rfl

theorem dmi_read_sbdata0_dm (s : BE) (hrod : s.dm.sb_readondata = true) :
    (dmi_read dm_addr_sbdata0 s).2.dm = sb_trigger_read s.dm := by
  unfold dmi_read dm_step_read
  rw [if_pos ⟨rfl, hrod⟩]

theorem dsw_sbaddress1 (d : DM) (v : Nat) :
    dm_step_write d dm_addr_sbaddress1 v =
      { d with sbaddress := (v % 4294967296) * 4294967296 + d.sbaddress % 4294967296 } := rfl

theorem dsw_sbdata0 (d : DM) (v : Nat) :
    dm_step_write d dm_addr_sbdata0 v = sb_do_write d v := rfl

theorem dsw_sbaddress0 (d : DM) (v : Nat) :
    dm_step_write d dm_addr_sbaddress0 v =
      (if d.sb_readonaddr
       then sb_trigger_read { d with sbaddress := (d.sbaddress >>> 32) * 4294967296 + v % 4294967296 }
       else { d with sbaddress := (d.sbaddress >>> 32) * 4294967296 + v % 4294967296 }) := rfl

theorem sb_width_32 : sb_width DM_SBACCESS_32_BIT = 4 := rfl

theorem sb_trigger_read_eval (d : DM) (hacc : d.sb_access = 2)
    (hai : d.sb_autoincrement = true) :
    sb_trigger_read d =
      { d with sbdata := dm_read_bytes d.mem d.sbaddress 4,
               sbaddress := d.sbaddress + 4 } := by
  unfold sb_trigger_read
  rw [show sb_width d.sb_access = 4 by rw [hacc]; rfl]
  rw [if_pos (show ({ d with sbdata := dm_read_bytes d.mem d.sbaddress 4 } : DM).sb_autoincrement = true from hai)]

theorem sb_do_write_eval_noinc (d : DM) (v : Nat) (hacc : d.sb_access = 2)
    (hai : d.sb_autoincrement = false) :
    sb_do_write d v =
      { d with mem := dm_write_bytes d.mem d.sbaddress v 4, sbdata := v } := by
  unfold sb_do_write
  rw [show sb_width d.sb_access = 4 by rw [hacc]; rfl]
  rw [if_neg (show ¬ ({ d with mem := dm_write_bytes d.mem d.sbaddress v 4, sbdata := v } : DM).sb_autoincrement = true by rw [show ({ d with mem := dm_write_bytes d.mem d.sbaddress v 4, sbdata := v } : DM).sb_autoincrement = d.sb_autoincrement from rfl, hai]; exact Bool.false_ne_true)]

theorem sb_do_write_eval_inc (d : DM) (v : Nat) (hacc : d.sb_access = 2)
    (hai : d.sb_autoincrement = true) :
    sb_do_write d v =
      { d with mem := dm_write_bytes d.mem d.sbaddress v 4, sbdata := v,
               sbaddress := d.sbaddress + 4 } := by
  unfold sb_do_write
  rw [show sb_width d.sb_access = 4 by rw [hacc]; rfl]
  rw [if_pos (show ({ d with mem := dm_write_bytes d.mem d.sbaddress v 4, sbdata := v } : DM).sb_autoincrement = true from hai)]


/- The model's sbcs read-back never has sbbusy set, so every wait loop
succeeds on its first poll.                                             -/

theorem sbbusy_sbcs_value (d : DM) : fn_sbcs_sbbusy (dm_sbcs_value d) = false := by
  have hr : d.sb_readonaddr.toNat ≤ 1 := by cases d.sb_readonaddr <;> decide
  have hai : d.sb_autoincrement.toNat ≤ 1 := by cases d.sb_autoincrement <;> decide
  have hrod : d.sb_readondata.toNat ≤ 1 := by cases d.sb_readondata <;> decide
  have ht : d.sb_access &&& 7 < 8 := by rw [and7_eq]; omega
  unfold fn_sbcs_sbbusy dm_sbcs_value
  rw [Nat.lor_assoc, Nat.lor_assoc, Nat.lor_assoc]
  rw [shl_or_eq_add d.sb_autoincrement.toNat
    (show d.sb_readondata.toNat <<< 15 < 2 ^ 16 by rw [shiftl_eq]; norm_num; omega)]
  rw [shl_or_eq_add (d.sb_access &&& 7)
    (show d.sb_autoincrement.toNat * 2 ^ 16 + d.sb_readondata.toNat <<< 15 < 2 ^ 17 by
      rw [shiftl_eq]; norm_num; omega)]
  rw [shl_or_eq_add d.sb_readonaddr.toNat
    (show (d.sb_access &&& 7) * 2 ^ 17 +
        (d.sb_autoincrement.toNat * 2 ^ 16 + d.sb_readondata.toNat <<< 15) < 2 ^ 20 by
      rw [shiftl_eq]; norm_num; omega)]
  rw [shl_or_eq_add 1
    (show d.sb_readonaddr.toNat * 2 ^ 20 +
        ((d.sb_access &&& 7) * 2 ^ 17 +
          (d.sb_autoincrement.toNat * 2 ^ 16 + d.sb_readondata.toNat <<< 15)) < 2 ^ 29 by
      rw [shiftl_eq]; norm_num; omega)]
  rw [shiftr_eq, and1_eq]
  rw [show (1 * 2 ^ 29 +
      (d.sb_readonaddr.toNat * 2 ^ 20 +
        ((d.sb_access &&& 7) * 2 ^ 17 +
          (d.sb_autoincrement.toNat * 2 ^ 16 + d.sb_readondata.toNat <<< 15)))) / 2 ^ 21 % 2 = 0 by
    rw [shiftl_eq]; norm_num; omega]
  decide


theorem wait_step_eval (fuel : Nat) (s : BE) :
    gdbstub_be_wait_for_sb_nonbusy (fuel + 1) s =
      (status_ok, dm_sbcs_value s.dm, (dmi_read dm_addr_sbcs s).2) := by
  dsimp only [gdbstub_be_wait_for_sb_nonbusy]
  rw [dmi_read_sbcs_fst, sbbusy_sbcs_value]
  simp

theorem wait_poll_eval (s : BE) :
    gdbstub_be_wait_for_sb_nonbusy POLL_FUEL s =
      (status_ok, dm_sbcs_value s.dm, (dmi_read dm_addr_sbcs s).2) := by
  rw [show POLL_FUEL = 1000000 + 1 from rfl]
  exact wait_step_eval 1000000 s

theorem sbcs_cfg_read (d : DM) :
    dm_step_write d dm_addr_sbcs
        (fn_mk_sbcs true true DM_SBACCESS_32_BIT true true DM_SBERROR_UNDEF7_W1C) =
      { d with sb_readonaddr := true, sb_access := 2, sb_autoincrement := true,
               sb_readondata := true } := rfl

theorem sbcs_cfg_write32 (d : DM) :
    dm_step_write d dm_addr_sbcs
        (fn_mk_sbcs true false DM_SBACCESS_32_BIT false false DM_SBERROR_UNDEF7_W1C) =
      { d with sb_readonaddr := false, sb_access := 2, sb_autoincrement := false,
               sb_readondata := false } := rfl

theorem sbcs_cfg_main (d : DM) :
    dm_step_write d dm_addr_sbcs
        (fn_mk_sbcs true false DM_SBACCESS_32_BIT true false DM_SBERROR_UNDEF7_W1C) =
      { d with sb_readonaddr := false, sb_access := 2, sb_autoincrement := true,
               sb_readondata := false } := rfl


theorem ite_ok_err {α : Sort _} (t e : α) :
    (if status_ok = status_err then t else e) = e := if_neg (by decide)

theorem hi_shift_32 (h l a : Nat) (hl : l < 4294967296) :
    (h * 4294967296 + l) >>> 32 * 4294967296 + a % 4294967296 % 4294967296 =
      h * 4294967296 + a % 4294967296 := by
  simp only [shiftr_eq]
  norm_num
  omega

theorem mem32_write_eval (xlen a d : Nat) (s : BE) (ha : a % 4 = 0) :
    (gdbstub_be_mem32_write xlen a d s).1 = status_ok ∧
    (gdbstub_be_mem32_write xlen a d s).2.dm =
      { s.dm with sb_readonaddr := false, sb_access := 2, sb_autoincrement := false,
                  sb_readondata := false,
                  sbaddress := (if xlen = 64
                    then ((a >>> 32) % 4294967296) * 4294967296 + a % 4294967296
                    else (s.dm.sbaddress >>> 32) * 4294967296 + a % 4294967296),
                  sbdata := d,
                  mem := dm_write_bytes s.dm.mem
                    (if xlen = 64
                      then ((a >>> 32) % 4294967296) * 4294967296 + a % 4294967296
                      else (s.dm.sbaddress >>> 32) * 4294967296 + a % 4294967296) d 4 } := by
  dsimp only [gdbstub_be_mem32_write]
  rw [if_neg (show ¬ a % 4 ≠ 0 by omega)]
  by_cases hx : xlen = 64
  · simp only [if_pos hx]
    simp only [wait_poll_eval, ite_ok_err, dmi_write_dm, dmi_read_sbcs_dm,
      sbcs_cfg_write32, dsw_sbaddress1, dsw_sbaddress0, dsw_sbdata0]
    refine ⟨trivial, ?_⟩
    rw [if_neg (show ¬ false = true by decide)]
    rw [sb_do_write_eval_noinc _ _ rfl rfl]
    rw [show (a >>> 32 % 4294967296 % 4294967296 * 4294967296 + s.dm.sbaddress % 4294967296) >>> 32
          * 4294967296 + a % 4294967296 % 4294967296
        = a >>> 32 % 4294967296 * 4294967296 + a % 4294967296 by
      rw [show a >>> 32 % 4294967296 % 4294967296 = a >>> 32 % 4294967296 by omega]
      exact hi_shift_32 _ _ a (by omega)]
  · simp only [if_neg hx]
    simp only [wait_poll_eval, ite_ok_err, dmi_write_dm, dmi_read_sbcs_dm,
      sbcs_cfg_write32, dsw_sbaddress1, dsw_sbaddress0, dsw_sbdata0]
    refine ⟨trivial, ?_⟩
    rw [if_neg (show ¬ false = true by decide)]
    rw [sb_do_write_eval_noinc _ _ rfl rfl]
    rw [show a % 4294967296 % 4294967296 = a % 4294967296 by omega]


theorem mem32_read_eval (xlen a : Nat) (s : BE) (ha : a % 4 = 0) :
    (gdbstub_be_mem32_read xlen a s).1 = status_ok ∧
    (gdbstub_be_mem32_read xlen a s).2.1 =
      dm_read_bytes s.dm.mem
        (if xlen = 64
          then ((a >>> 32) % 4294967296) * 4294967296 + a % 4294967296
          else (s.dm.sbaddress >>> 32) * 4294967296 + a % 4294967296) 4 ∧
    (gdbstub_be_mem32_read xlen a s).2.2.dm =
      { s.dm with sb_readonaddr := true, sb_access := 2, sb_autoincrement := true,
                  sb_readondata := true,
                  sbaddress := (if xlen = 64
                    then ((a >>> 32) % 4294967296) * 4294967296 + a % 4294967296
                    else (s.dm.sbaddress >>> 32) * 4294967296 + a % 4294967296) + 8,
                  sbdata := dm_read_bytes s.dm.mem
                    ((if xlen = 64
                      then ((a >>> 32) % 4294967296) * 4294967296 + a % 4294967296
                      else (s.dm.sbaddress >>> 32) * 4294967296 + a % 4294967296) + 4) 4 } := by
  dsimp only [gdbstub_be_mem32_read]
  rw [if_neg (show ¬ a % 4 ≠ 0 by omega)]
  by_cases hx : xlen = 64
  · simp only [if_pos hx]
    simp only [wait_poll_eval, ite_ok_err, dmi_write_dm, dmi_read_sbcs_dm,
      sbcs_cfg_read, dsw_sbaddress1, dsw_sbaddress0, dsw_sbdata0,
      sb_trigger_read_eval, dmi_read_sbdata0_fst, dmi_read_sbdata0_dm, if_true]
    rw [show (a >>> 32 % 4294967296 % 4294967296 * 4294967296 + s.dm.sbaddress % 4294967296)
          >>> 32 * 4294967296 + a % 4294967296 % 4294967296
        = a >>> 32 % 4294967296 * 4294967296 + a % 4294967296 by
      simp only [shiftr_eq]; norm_num; omega]
    rw [show a >>> 32 % 4294967296 * 4294967296 + a % 4294967296 + 4 + 4
        = a >>> 32 % 4294967296 * 4294967296 + a % 4294967296 + 8 by omega]
    exact ⟨trivial, rfl, rfl⟩
  · simp only [if_neg hx]
    simp only [wait_poll_eval, ite_ok_err, dmi_write_dm, dmi_read_sbcs_dm,
      sbcs_cfg_read, dsw_sbaddress1, dsw_sbaddress0, dsw_sbdata0,
      sb_trigger_read_eval, dmi_read_sbdata0_fst, dmi_read_sbdata0_dm, if_true]
    rw [show a % 4294967296 % 4294967296 = a % 4294967296 by omega]
    rw [show s.dm.sbaddress >>> 32 * 4294967296 + a % 4294967296 + 4 + 4
        = s.dm.sbaddress >>> 32 * 4294967296 + a % 4294967296 + 8 by omega]
    exact ⟨trivial, rfl, rfl⟩


theorem getD_lt_256 (data : List Nat) (hdata : ∀ b ∈ data, b < 256) (i : Nat) :
    data.getD i 0 < 256 := by
  by_cases hi : i < data.length
  · rw [List.getD_eq_getElem data 0 hi]
    exact hdata _ (List.getElem_mem hi)
  · rw [List.getD_eq_default data 0 (by omega)]
    omega

theorem mem_write_words_eval (n : Nat) (data : List Nat) (addr4 jd : Nat) (s : BE)
    (hdata : ∀ b ∈ data, b < 256)
    (hacc : s.dm.sb_access = 2) (hai : s.dm.sb_autoincrement = true) :
    (mem_write_words n addr4 data jd s).dm.sb_access = 2 ∧
    (mem_write_words n addr4 data jd s).dm.sb_autoincrement = true ∧
    (mem_write_words n addr4 data jd s).dm.sbaddress = s.dm.sbaddress + 4 * n ∧
    (∀ x : Nat,
      (mem_write_words n addr4 data jd s).dm.mem x =
        if s.dm.sbaddress ≤ x ∧ x < s.dm.sbaddress + 4 * n
        then data.getD (jd + (x - s.dm.sbaddress)) 0
        else s.dm.mem x) := by
  induction n generalizing addr4 jd s with
  | zero =>
    refine ⟨hacc, hai, by dsimp only [mem_write_words]; omega, fun x => ?_⟩
    rw [if_neg (by omega)]
    rfl
  | succ n ih =>
    dsimp only [mem_write_words]
    have hstep : (dmi_write dm_addr_sbdata0
        (word_of_bytes (data.getD jd 0) (data.getD (jd + 1) 0)
          (data.getD (jd + 2) 0) (data.getD (jd + 3) 0)) s).dm =
        sb_do_write s.dm
          (word_of_bytes (data.getD jd 0) (data.getD (jd + 1) 0)
            (data.getD (jd + 2) 0) (data.getD (jd + 3) 0)) := by
      rw [dmi_write_dm, dsw_sbdata0]
    have hrec := sb_do_write_eval_inc s.dm
      (word_of_bytes (data.getD jd 0) (data.getD (jd + 1) 0)
        (data.getD (jd + 2) 0) (data.getD (jd + 3) 0)) hacc hai
    have hmem : (dmi_write dm_addr_sbdata0
        (word_of_bytes (data.getD jd 0) (data.getD (jd + 1) 0)
          (data.getD (jd + 2) 0) (data.getD (jd + 3) 0)) s).dm.mem =
        dm_write_bytes s.dm.mem s.dm.sbaddress
          (word_of_bytes (data.getD jd 0) (data.getD (jd + 1) 0)
            (data.getD (jd + 2) 0) (data.getD (jd + 3) 0)) 4 := by
      rw [hstep, hrec]
    have haddr : (dmi_write dm_addr_sbdata0
        (word_of_bytes (data.getD jd 0) (data.getD (jd + 1) 0)
          (data.getD (jd + 2) 0) (data.getD (jd + 3) 0)) s).dm.sbaddress =
        s.dm.sbaddress + 4 := by
      rw [hstep, hrec]
    have hacc2 : (dmi_write dm_addr_sbdata0
        (word_of_bytes (data.getD jd 0) (data.getD (jd + 1) 0)
          (data.getD (jd + 2) 0) (data.getD (jd + 3) 0)) s).dm.sb_access = 2 := by
      rw [hstep, hrec]; exact hacc
    have hai2 : (dmi_write dm_addr_sbdata0
        (word_of_bytes (data.getD jd 0) (data.getD (jd + 1) 0)
          (data.getD (jd + 2) 0) (data.getD (jd + 3) 0)) s).dm.sb_autoincrement = true := by
      rw [hstep, hrec]; exact hai
    obtain ⟨ha1, ha2, ha3, ha4⟩ := ih (addr4 + 4) (jd + 4)
      (dmi_write dm_addr_sbdata0
        (word_of_bytes (data.getD jd 0) (data.getD (jd + 1) 0)
          (data.getD (jd + 2) 0) (data.getD (jd + 3) 0)) s)
      hacc2 hai2
    rw [haddr] at ha3
    refine ⟨ha1, ha2, by rw [ha3]; omega, fun x => ?_⟩
    rw [ha4 x, haddr, hmem]
    have hb0 := getD_lt_256 data hdata jd
    have hb1 := getD_lt_256 data hdata (jd + 1)
    have hb2 := getD_lt_256 data hdata (jd + 2)
    have hb3 := getD_lt_256 data hdata (jd + 3)
    have hw := word_of_bytes_eq_add (data.getD jd 0) (data.getD (jd + 1) 0)
      (data.getD (jd + 2) 0) (data.getD (jd + 3) 0) hb0 hb1 hb2
    by_cases hin : s.dm.sbaddress + 4 ≤ x ∧ x < s.dm.sbaddress + 4 + 4 * n
    · rw [if_pos hin, if_pos (by omega)]
      rw [show jd + 4 + (x - (s.dm.sbaddress + 4)) = jd + (x - s.dm.sbaddress) by omega]
    · rw [if_neg hin, dm_write_bytes_four]
      by_cases h0 : x = s.dm.sbaddress
      · rw [if_pos h0, if_pos (by omega),
          show jd + (x - s.dm.sbaddress) = jd by omega, hw]
        omega
      · rw [if_neg h0]
        by_cases h1 : x = s.dm.sbaddress + 1
        · rw [if_pos h1, if_pos (by omega),
            show jd + (x - s.dm.sbaddress) = jd + 1 by omega, hw]
          omega
        · rw [if_neg h1]
          by_cases h2 : x = s.dm.sbaddress + 2
          · rw [if_pos h2, if_pos (by omega),
              show jd + (x - s.dm.sbaddress) = jd + 2 by omega, hw]
            omega
          · rw [if_neg h2]
            by_cases h3 : x = s.dm.sbaddress + 3
            · rw [if_pos h3, if_pos (by omega),
                show jd + (x - s.dm.sbaddress) = jd + 3 by omega, hw]
              omega
            · rw [if_neg h3, if_neg (by omega)]


theorem mem_read_words_eval (n : Nat) (addr addr_lim B : Nat) (addr4 : Nat) (acc : List Nat)
    (s : BE)
    (hacc2 : s.dm.sb_access = 2) (hai : s.dm.sb_autoincrement = true)
    (hrod : s.dm.sb_readondata = true)
    (haddr : s.dm.sbaddress = B + addr4 + 4)
    (hsbd : s.dm.sbdata = dm_read_bytes s.dm.mem (B + addr4) 4)
    (h1 : addr ≤ addr4) (h2 : addr_lim ≤ addr4 + 4 * n) :
    (mem_read_words n addr4 addr addr_lim acc s).1 = status_ok ∧
    (mem_read_words n addr4 addr addr_lim acc s).2.1 =
      acc ++ (List.range (addr_lim - addr4)).map (fun i => s.dm.mem (B + addr4 + i) % 256) := by
  induction n generalizing addr4 acc s with
  | zero =>
    rw [show addr_lim - addr4 = 0 by omega]
    exact ⟨rfl, by simp [mem_read_words]⟩
  | succ n ih =>
    dsimp only [mem_read_words]
    simp only [wait_poll_eval, ite_ok_err, dmi_read_sbcs_dm, dmi_read_sbdata0_fst,
      dmi_read_sbdata0_dm, sb_trigger_read_eval, hrod, hacc2, hai, hsbd, haddr]
    rw [if_neg (show ¬ addr4 < addr by omega)]
    have hPdm : (dmi_read dm_addr_sbdata0 (dmi_read dm_addr_sbcs s).2).2.dm =
        { s.dm with sbdata := dm_read_bytes s.dm.mem s.dm.sbaddress 4,
                    sbaddress := s.dm.sbaddress + 4 } := by
      rw [dmi_read_sbdata0_dm _ (by rw [dmi_read_sbcs_dm]; exact hrod), dmi_read_sbcs_dm,
        sb_trigger_read_eval s.dm hacc2 hai]
    have hPmem : (dmi_read dm_addr_sbdata0 (dmi_read dm_addr_sbcs s).2).2.dm.mem = s.dm.mem := by
      rw [hPdm]
    obtain ⟨ihs, iho⟩ := ih (addr4 + 4)
      (acc ++
        if addr4 + 4 ≤ addr_lim then
          [word_byte (dm_read_bytes s.dm.mem (B + addr4) 4) 0,
            word_byte (dm_read_bytes s.dm.mem (B + addr4) 4) 1,
            word_byte (dm_read_bytes s.dm.mem (B + addr4) 4) 2,
            word_byte (dm_read_bytes s.dm.mem (B + addr4) 4) 3]
        else
          List.map (fun i => word_byte (dm_read_bytes s.dm.mem (B + addr4) 4) i)
            (List.range (addr_lim - addr4)))
      (dmi_read dm_addr_sbdata0 (dmi_read dm_addr_sbcs s).2).2
      (by rw [hPdm]; exact hacc2)
      (by rw [hPdm]; exact hai)
      (by rw [hPdm]; exact hrod)
      (by rw [hPdm]
          show s.dm.sbaddress + 4 = B + (addr4 + 4) + 4
          omega)
      (by rw [hPdm]
          show dm_read_bytes s.dm.mem s.dm.sbaddress 4 = dm_read_bytes s.dm.mem (B + (addr4 + 4)) 4
          rw [haddr, show B + addr4 + 4 = B + (addr4 + 4) by omega])
      (by omega) (by omega)
    rw [hPmem] at iho
    refine ⟨ihs, ?_⟩
    rw [iho, List.append_assoc]
    by_cases hc : addr4 + 4 ≤ addr_lim
    · rw [if_pos hc]
      rw [show addr_lim - addr4 = 4 + (addr_lim - (addr4 + 4)) by omega, List.range_add,
        List.map_append, List.map_map]
      rw [show List.range 4 = [0, 1, 2, 3] from rfl]
      simp only [List.map_cons, List.map_nil]
      rw [word_byte_read_bytes _ _ 0 (by omega), word_byte_read_bytes _ _ 1 (by omega),
        word_byte_read_bytes _ _ 2 (by omega), word_byte_read_bytes _ _ 3 (by omega)]
      have hfun : ∀ i : Nat, s.dm.mem (B + (addr4 + 4) + i) % 256
          = s.dm.mem (B + addr4 + (4 + i)) % 256 := fun i => by
        rw [show B + (addr4 + 4) + i = B + addr4 + (4 + i) by omega]
      simp only [hfun]
      rfl
    · rw [if_neg hc]
      rw [show addr_lim - (addr4 + 4) = 0 by omega]
      simp only [List.range_zero, List.map_nil, List.append_nil]
      congr 1
      refine List.map_congr_left (fun i hi => ?_)
      have hi4 : i < 4 := by
        have := List.mem_range.mp hi
        omega
      rw [word_byte_read_bytes _ _ i hi4]


theorem mem_read_words_first (n : Nat) (addr addr_lim B : Nat) (addr4 : Nat) (acc : List Nat)
    (s : BE)
    (hacc2 : s.dm.sb_access = 2) (hai : s.dm.sb_autoincrement = true)
    (hrod : s.dm.sb_readondata = true)
    (haddr : s.dm.sbaddress = B + addr4 + 4)
    (hsbd : s.dm.sbdata = dm_read_bytes s.dm.mem (B + addr4) 4)
    (h1 : addr4 < addr) (h1' : addr < addr4 + 4) (h2 : addr_lim ≤ addr4 + 4 * (n + 1)) :
    (mem_read_words (n + 1) addr4 addr addr_lim acc s).1 = status_ok ∧
    (mem_read_words (n + 1) addr4 addr addr_lim acc s).2.1 =
      acc ++ (List.range (addr4 + 4 - addr)).map (fun i => s.dm.mem (B + addr + i) % 256)
          ++ (List.range (addr_lim - (addr4 + 4))).map
              (fun i => s.dm.mem (B + (addr4 + 4) + i) % 256) := by
  dsimp only [mem_read_words]
  simp only [wait_poll_eval, ite_ok_err, dmi_read_sbcs_dm, dmi_read_sbdata0_fst,
    dmi_read_sbdata0_dm, sb_trigger_read_eval, hrod, hacc2, hai, hsbd, haddr]
  rw [if_pos h1]
  have hPdm : (dmi_read dm_addr_sbdata0 (dmi_read dm_addr_sbcs s).2).2.dm =
      { s.dm with sbdata := dm_read_bytes s.dm.mem s.dm.sbaddress 4,
                  sbaddress := s.dm.sbaddress + 4 } := by
    rw [dmi_read_sbdata0_dm _ (by rw [dmi_read_sbcs_dm]; exact hrod), dmi_read_sbcs_dm,
      sb_trigger_read_eval s.dm hacc2 hai]
  have hPmem : (dmi_read dm_addr_sbdata0 (dmi_read dm_addr_sbcs s).2).2.dm.mem = s.dm.mem := by
    rw [hPdm]
  obtain ⟨ihs, iho⟩ := mem_read_words_eval n addr addr_lim B (addr4 + 4)
    (acc ++ (List.range (4 - (addr - addr4))).map
      (fun i => word_byte (dm_read_bytes s.dm.mem (B + addr4) 4) (addr - addr4 + i)))
    (dmi_read dm_addr_sbdata0 (dmi_read dm_addr_sbcs s).2).2
    (by rw [hPdm]; exact hacc2)
    (by rw [hPdm]; exact hai)
    (by rw [hPdm]; exact hrod)
    (by rw [hPdm]
        show s.dm.sbaddress + 4 = B + (addr4 + 4) + 4
        omega)
    (by rw [hPdm]
        show dm_read_bytes s.dm.mem s.dm.sbaddress 4 = dm_read_bytes s.dm.mem (B + (addr4 + 4)) 4
        rw [haddr, show B + addr4 + 4 = B + (addr4 + 4) by omega])
    (by omega) (by omega)
  rw [hPmem] at iho
  refine ⟨ihs, ?_⟩
  rw [iho, show (4 : Nat) - (addr - addr4) = addr4 + 4 - addr by omega]
  congr 1
  congr 1
  refine List.map_congr_left (fun i hi => ?_)
  have hib : i < addr4 + 4 - addr := List.mem_range.mp hi
  rw [word_byte_read_bytes _ _ _ (by omega)]
  rw [show B + addr4 + (addr - addr4 + i) = B + addr + i by omega]


theorem mem_read_loop_part (addr len B : Nat) (ST : BE) (s_mem : Nat → Nat)
    (hlen : ¬ len = 0)
    (ha2 : ST.dm.sb_access = 2) (hai : ST.dm.sb_autoincrement = true)
    (hrod : ST.dm.sb_readondata = true)
    (haddr : ST.dm.sbaddress = B + (addr - addr % 4) + 4)
    (hsbd : ST.dm.sbdata = dm_read_bytes ST.dm.mem (B + (addr - addr % 4)) 4)
    (hmem : ST.dm.mem = s_mem) :
    (mem_read_words ((addr + len + 3 - (addr + len + 3) % 4 - (addr - addr % 4)) / 4)
        (addr - addr % 4) addr (addr + len) [] ST).1 = status_ok ∧
    ((mem_read_words ((addr + len + 3 - (addr + len + 3) % 4 - (addr - addr % 4)) / 4)
        (addr - addr % 4) addr (addr + len) [] ST).2.1).take len =
      (List.range len).map (fun i => s_mem (B + addr + i) % 256) := by
  subst hmem
  by_cases hal : addr % 4 = 0
  · obtain ⟨h1, h2⟩ := mem_read_words_eval
      ((addr + len + 3 - (addr + len + 3) % 4 - (addr - addr % 4)) / 4)
      addr (addr + len) B (addr - addr % 4) [] ST ha2 hai hrod haddr hsbd
      (by omega) (by omega)
    refine ⟨h1, ?_⟩
    rw [h2, List.nil_append, show addr + len - (addr - addr % 4) = len by omega]
    have hfun : ∀ i : Nat, ST.dm.mem (B + (addr - addr % 4) + i) % 256
        = ST.dm.mem (B + addr + i) % 256 := fun i => by
      rw [show B + (addr - addr % 4) + i = B + addr + i by omega]
    simp only [hfun]
    exact List.take_of_length_le (by simp)
  · rw [show (addr + len + 3 - (addr + len + 3) % 4 - (addr - addr % 4)) / 4
        = ((addr + len + 3 - (addr + len + 3) % 4 - (addr - addr % 4)) / 4 - 1) + 1 by omega]
    obtain ⟨h1, h2⟩ := mem_read_words_first
      ((addr + len + 3 - (addr + len + 3) % 4 - (addr - addr % 4)) / 4 - 1)
      addr (addr + len) B (addr - addr % 4) [] ST ha2 hai hrod haddr hsbd
      (by omega) (by omega) (by omega)
    refine ⟨h1, ?_⟩
    rw [h2, List.nil_append]
    by_cases hcase : addr + len ≤ (addr - addr % 4) + 4
    · rw [show addr + len - ((addr - addr % 4) + 4) = 0 by omega]
      simp only [List.range_zero, List.map_nil, List.append_nil]
      rw [← List.map_take, List.take_range, Nat.min_eq_left (by omega)]
    · rw [List.take_of_length_le (by simp; omega)]
      rw [show len = ((addr - addr % 4) + 4 - addr) + (addr + len - ((addr - addr % 4) + 4)) by omega,
        List.range_add, List.map_append]
      congr 1
      rw [List.map_map,
        show addr + (addr - addr % 4 + 4 - addr + (addr + len - (addr - addr % 4 + 4))) - (addr - addr % 4 + 4)
          = addr + len - (addr - addr % 4 + 4) by omega]
      refine List.map_congr_left (fun i _ => ?_)
      simp only [Function.comp]
      rw [show B + (addr - addr % 4 + 4) + i = B + addr + (addr - addr % 4 + 4 - addr + i) by omega]


theorem mem_read_eval (xlen addr len : Nat) (s : BE) (B : Nat)
    (hB : B = if xlen = 64 then 0 else (s.dm.sbaddress >>> 32) * 4294967296)
    (hx : xlen = 32 ∨ xlen = 64)
    (hbound : addr + len + 8 ≤ 2 ^ xlen) :
    (gdbstub_be_mem_read true xlen addr len s).1 = status_ok ∧
    ((gdbstub_be_mem_read true xlen addr len s).2.1).take len =
      (List.range len).map (fun i => s.dm.mem (B + addr + i) % 256) := by
  by_cases hlen : len = 0
  · subst hlen
    dsimp only [gdbstub_be_mem_read]
    rw [if_neg (show ¬ ¬ (true = true) by simp), if_pos rfl]
    exact ⟨rfl, by simp⟩
  · dsimp only [gdbstub_be_mem_read]
    rw [if_neg (show ¬ ¬ (true = true) by simp), if_neg hlen]
    by_cases hx64 : xlen = 64
    · simp only [if_pos hx64]
      have hb64 : addr + len + 8 ≤ 18446744073709551616 := by
        rw [hx64] at hbound; norm_num at hbound; omega
      have hA0 : ((addr - addr % 4) >>> 32 % 4294967296 % 4294967296 * 4294967296 +
            s.dm.sbaddress % 4294967296) >>> 32 * 4294967296 +
            (addr - addr % 4) % 4294967296 % 4294967296 = B + (addr - addr % 4) := by
        rw [hB, if_pos hx64]
        simp only [shiftr_eq]
        norm_num
        omega
      have hST : (dmi_write dm_addr_sbaddress0 ((addr - addr % 4) % 4294967296)
            (dmi_write dm_addr_sbaddress1 ((addr - addr % 4) >>> 32 % 4294967296)
              (dmi_read dm_addr_sbcs
                  (dmi_write dm_addr_sbcs
                    (fn_mk_sbcs true true DM_SBACCESS_32_BIT true true DM_SBERROR_UNDEF7_W1C)
                    (dmi_read dm_addr_sbcs s).2)).2)).dm =
          { s.dm with sb_readonaddr := true, sb_access := 2, sb_autoincrement := true,
                      sb_readondata := true,
                      sbaddress := B + (addr - addr % 4) + 4,
                      sbdata := dm_read_bytes s.dm.mem (B + (addr - addr % 4)) 4 } := by
        simp only [dmi_write_dm, dmi_read_sbcs_dm, sbcs_cfg_read, dsw_sbaddress1,
          dsw_sbaddress0, sb_trigger_read_eval, if_true]
        rw [hA0]
      simp only [wait_poll_eval, ite_ok_err]
      exact mem_read_loop_part addr len B _ s.dm.mem hlen
        (by rw [hST]) (by rw [hST]) (by rw [hST]) (by rw [hST]) (by rw [hST]) (by rw [hST])
    · have hx32 : xlen = 32 := by rcases hx with h | h; exact h; exact absurd h hx64
      simp only [if_neg hx64]
      have hb32 : addr + len + 8 ≤ 4294967296 := by
        rw [hx32] at hbound; norm_num at hbound; omega
      have hA0 : s.dm.sbaddress >>> 32 * 4294967296 +
            (addr - addr % 4) % 4294967296 % 4294967296 = B + (addr - addr % 4) := by
        rw [hB, if_neg hx64]
        omega
      have hST : (dmi_write dm_addr_sbaddress0 ((addr - addr % 4) % 4294967296)
            (dmi_read dm_addr_sbcs
                (dmi_write dm_addr_sbcs
                  (fn_mk_sbcs true true DM_SBACCESS_32_BIT true true DM_SBERROR_UNDEF7_W1C)
                  (dmi_read dm_addr_sbcs s).2)).2).dm =
          { s.dm with sb_readonaddr := true, sb_access := 2, sb_autoincrement := true,
                      sb_readondata := true,
                      sbaddress := B + (addr - addr % 4) + 4,
                      sbdata := dm_read_bytes s.dm.mem (B + (addr - addr % 4)) 4 } := by
        simp only [dmi_write_dm, dmi_read_sbcs_dm, sbcs_cfg_read, dsw_sbaddress1,
          dsw_sbaddress0, sb_trigger_read_eval, if_true]
        rw [hA0]
      simp only [wait_poll_eval, ite_ok_err]
      exact mem_read_loop_part addr len B _ s.dm.mem hlen
        (by rw [hST]) (by rw [hST]) (by rw [hST]) (by rw [hST]) (by rw [hST]) (by rw [hST])


theorem sbbusyerror_sbcs_value (d : DM) : fn_sbcs_sbbusyerror (dm_sbcs_value d) = false := by
  have hr : d.sb_readonaddr.toNat ≤ 1 := by cases d.sb_readonaddr <;> decide
  have hai : d.sb_autoincrement.toNat ≤ 1 := by cases d.sb_autoincrement <;> decide
  have hrod : d.sb_readondata.toNat ≤ 1 := by cases d.sb_readondata <;> decide
  have ht : d.sb_access &&& 7 < 8 := by rw [and7_eq]; omega
  unfold fn_sbcs_sbbusyerror dm_sbcs_value
  rw [Nat.lor_assoc, Nat.lor_assoc, Nat.lor_assoc]
  rw [shl_or_eq_add d.sb_autoincrement.toNat
    (show d.sb_readondata.toNat <<< 15 < 2 ^ 16 by rw [shiftl_eq]; norm_num; omega)]
  rw [shl_or_eq_add (d.sb_access &&& 7)
    (show d.sb_autoincrement.toNat * 2 ^ 16 + d.sb_readondata.toNat <<< 15 < 2 ^ 17 by
      rw [shiftl_eq]; norm_num; omega)]
  rw [shl_or_eq_add d.sb_readonaddr.toNat
    (show (d.sb_access &&& 7) * 2 ^ 17 +
        (d.sb_autoincrement.toNat * 2 ^ 16 + d.sb_readondata.toNat <<< 15) < 2 ^ 20 by
      rw [shiftl_eq]; norm_num; omega)]
  rw [shl_or_eq_add 1
    (show d.sb_readonaddr.toNat * 2 ^ 20 +
        ((d.sb_access &&& 7) * 2 ^ 17 +
          (d.sb_autoincrement.toNat * 2 ^ 16 + d.sb_readondata.toNat <<< 15)) < 2 ^ 29 by
      rw [shiftl_eq]; norm_num; omega)]
  rw [shiftr_eq, and1_eq]
  rw [show (1 * 2 ^ 29 +
      (d.sb_readonaddr.toNat * 2 ^ 20 +
        ((d.sb_access &&& 7) * 2 ^ 17 +
          (d.sb_autoincrement.toNat * 2 ^ 16 + d.sb_readondata.toNat <<< 15)))) / 2 ^ 22 % 2 = 0 by
    rw [shiftl_eq]; norm_num; omega]
  decide

theorem sberror_sbcs_value (d : DM) : fn_sbcs_sberror (dm_sbcs_value d) = DM_SBERROR_NONE := by
  have hr : d.sb_readonaddr.toNat ≤ 1 := by cases d.sb_readonaddr <;> decide
  have hai : d.sb_autoincrement.toNat ≤ 1 := by cases d.sb_autoincrement <;> decide
  have hrod : d.sb_readondata.toNat ≤ 1 := by cases d.sb_readondata <;> decide
  have ht : d.sb_access &&& 7 < 8 := by rw [and7_eq]; omega
  unfold fn_sbcs_sberror dm_sbcs_value DM_SBERROR_NONE
  rw [Nat.lor_assoc, Nat.lor_assoc, Nat.lor_assoc]
  rw [shl_or_eq_add d.sb_autoincrement.toNat
    (show d.sb_readondata.toNat <<< 15 < 2 ^ 16 by rw [shiftl_eq]; norm_num; omega)]
  rw [shl_or_eq_add (d.sb_access &&& 7)
    (show d.sb_autoincrement.toNat * 2 ^ 16 + d.sb_readondata.toNat <<< 15 < 2 ^ 17 by
      rw [shiftl_eq]; norm_num; omega)]
  rw [shl_or_eq_add d.sb_readonaddr.toNat
    (show (d.sb_access &&& 7) * 2 ^ 17 +
        (d.sb_autoincrement.toNat * 2 ^ 16 + d.sb_readondata.toNat <<< 15) < 2 ^ 20 by
      rw [shiftl_eq]; norm_num; omega)]
  rw [shl_or_eq_add 1
    (show d.sb_readonaddr.toNat * 2 ^ 20 +
        ((d.sb_access &&& 7) * 2 ^ 17 +
          (d.sb_autoincrement.toNat * 2 ^ 16 + d.sb_readondata.toNat <<< 15)) < 2 ^ 29 by
      rw [shiftl_eq]; norm_num; omega)]
  rw [shiftr_eq, and7_eq]
  rw [shiftl_eq]
  norm_num
  omega

theorem word_byte_lt (x i : Nat) : word_byte x i < 256 := by
  unfold word_byte
  rw [and255_eq]
  omega


theorem ite_false_cond {α : Sort _} (t e : α) :
    (if false = true then t else e) = e := if_neg (by decide)

theorem ite_ok_ne_ok {α : Sort _} (t e : α) :
    (if status_ok ≠ status_ok then t else e) = e := if_neg (by simp)

theorem ite_sberr_none {α : Sort _} (t e : α) :
    (if DM_SBERROR_NONE ≠ DM_SBERROR_NONE then t else e) = e := if_neg (by simp)

theorem dm_write_bytes_four_wb (m : Nat → Nat) (a v x : Nat) :
    dm_write_bytes m a v 4 x =
      if x = a then word_byte v 0
      else if x = a + 1 then word_byte v 1
      else if x = a + 2 then word_byte v 2
      else if x = a + 3 then word_byte v 3
      else m x := by
  rw [dm_write_bytes_four]
  unfold word_byte
  simp only [shiftr_eq, and255_eq]
  norm_num

theorem rmw_suffix_byte (x n : Nat) (data : List Nat) (jd : Nat)
    (hdata : ∀ b ∈ data, b < 256) (i : Nat) (hi : i < 4) :
    word_byte (rmw_suffix x n data jd) i =
      if i < n then data.getD (jd + i) 0 else word_byte x i := by
  have hb : ∀ j : Nat, (if j < n then data.getD (jd + j) 0 else word_byte x j) < 256 :=
    fun j => by
      by_cases hj : j < n
      · rw [if_pos hj]; exact getD_lt_256 data hdata _
      · rw [if_neg hj]; exact word_byte_lt x j
  unfold rmw_suffix
  obtain ⟨e0, e1, e2, e3⟩ := word_byte_of_bytes _ _ _ _ (hb 0) (hb 1) (hb 2) (hb 3)
  interval_cases i
  · exact e0
  · exact e1
  · exact e2
  · exact e3

theorem rmw_lead_byte (x offset : Nat) (data : List Nat)
    (hdata : ∀ b ∈ data, b < 256) (i : Nat) (hi : i < 4) :
    word_byte (rmw_lead x offset data) i =
      if i < offset then word_byte x i else data.getD (i - offset) 0 := by
  have hb : ∀ j : Nat, (if j < offset then word_byte x j else data.getD (j - offset) 0) < 256 :=
    fun j => by
      by_cases hj : j < offset
      · rw [if_pos hj]; exact word_byte_lt x j
      · rw [if_neg hj]; exact getD_lt_256 data hdata _
  unfold rmw_lead
  obtain ⟨e0, e1, e2, e3⟩ := word_byte_of_bytes _ _ _ _ (hb 0) (hb 1) (hb 2) (hb 3)
  interval_cases i
  · exact e0
  · exact e1
  · exact e2
  · exact e3


theorem mem_write_tail_eval (xlen : Nat) (data : List Nat) (addr4 jd addr_lim NW A4 B : Nat)
    (ST : BE)
    (hx : xlen = 32 ∨ xlen = 64)
    (hdata : ∀ b ∈ data, b < 256)
    (hal : addr4 % 4 = 0)
    (hbound : addr_lim + 8 ≤ 2 ^ xlen)
    (hB0 : B % 4294967296 = 0)
    (hB64 : xlen = 64 → B = 0)
    (hA4 : A4 = addr4 + 4 * NW)
    (hle : A4 ≤ addr_lim + 3)
    (hge : addr_lim ≤ A4 + 3)
    (hacc : ST.dm.sb_access = 2)
    (hai : ST.dm.sb_autoincrement = true)
    (haddr : ST.dm.sbaddress = B + addr4) :
    (∀ x : Nat, addr4 ≤ x → x < addr_lim →
      (if A4 < addr_lim
       then (gdbstub_be_mem32_write xlen A4
          (rmw_suffix (gdbstub_be_mem32_read xlen A4 (mem_write_words NW addr4 data jd ST)).2.1
            (addr_lim - A4) data (jd + 4 * NW))
          (gdbstub_be_mem32_read xlen A4 (mem_write_words NW addr4 data jd ST)).2.2).2
       else mem_write_words NW addr4 data jd ST).dm.mem (B + x)
        = data.getD (jd + (x - addr4)) 0) ∧
    (∀ y : Nat, y < B + addr4 →
      (if A4 < addr_lim
       then (gdbstub_be_mem32_write xlen A4
          (rmw_suffix (gdbstub_be_mem32_read xlen A4 (mem_write_words NW addr4 data jd ST)).2.1
            (addr_lim - A4) data (jd + 4 * NW))
          (gdbstub_be_mem32_read xlen A4 (mem_write_words NW addr4 data jd ST)).2.2).2
       else mem_write_words NW addr4 data jd ST).dm.mem y = ST.dm.mem y) ∧
    (xlen = 32 →
      (if A4 < addr_lim
       then (gdbstub_be_mem32_write xlen A4
          (rmw_suffix (gdbstub_be_mem32_read xlen A4 (mem_write_words NW addr4 data jd ST)).2.1
            (addr_lim - A4) data (jd + 4 * NW))
          (gdbstub_be_mem32_read xlen A4 (mem_write_words NW addr4 data jd ST)).2.2).2
       else mem_write_words NW addr4 data jd ST).dm.sbaddress >>> 32 = B >>> 32) := by
  obtain ⟨hw1, hw2, hw3, hw4⟩ := mem_write_words_eval NW data addr4 jd ST hdata hacc hai
  rw [haddr] at hw3 hw4
  have hb64 : xlen = 64 → addr_lim + 8 ≤ 18446744073709551616 := fun h => by
    rw [h] at hbound; norm_num at hbound; omega
  have hb32 : xlen = 32 → addr_lim + 8 ≤ 4294967296 := fun h => by
    rw [h] at hbound; norm_num at hbound; omega
  by_cases hrm : A4 < addr_lim
  · simp only [if_pos hrm]
    have hA4mod : A4 % 4 = 0 := by omega
    obtain ⟨-, -, hr3⟩ := mem32_read_eval xlen A4 (mem_write_words NW addr4 data jd ST) hA4mod
    have hAddrR : (if xlen = 64
          then ((A4 >>> 32) % 4294967296) * 4294967296 + A4 % 4294967296
          else ((mem_write_words NW addr4 data jd ST).dm.sbaddress >>> 32) * 4294967296
            + A4 % 4294967296) = B + A4 := by
      by_cases hx64 : xlen = 64
      · have hb := hb64 hx64
        rw [if_pos hx64, hB64 hx64]
        simp only [shiftr_eq]
        norm_num
        omega
      · have hx32 : xlen = 32 := by rcases hx with h | h; exact h; exact absurd h hx64
        have hb := hb32 hx32
        rw [if_neg hx64, hw3]
        simp only [shiftr_eq]
        norm_num
        omega
    rw [hAddrR] at hr3
    generalize hR : gdbstub_be_mem32_read xlen A4 (mem_write_words NW addr4 data jd ST) = R
    rw [hR] at hr3
    have hR2m : R.2.2.dm.mem = (mem_write_words NW addr4 data jd ST).dm.mem := by rw [hr3]
    have hR2a : R.2.2.dm.sbaddress = B + A4 + 8 := by rw [hr3]
    obtain ⟨hv1, hv2⟩ := mem32_write_eval xlen A4
      (rmw_suffix R.2.1 (addr_lim - A4) data (jd + 4 * NW)) R.2.2 hA4mod
    have hAddrW : (if xlen = 64
          then ((A4 >>> 32) % 4294967296) * 4294967296 + A4 % 4294967296
          else (R.2.2.dm.sbaddress >>> 32) * 4294967296 + A4 % 4294967296) = B + A4 := by
      by_cases hx64 : xlen = 64
      · have hb := hb64 hx64
        rw [if_pos hx64, hB64 hx64]
        simp only [shiftr_eq]
        norm_num
        omega
      · have hx32 : xlen = 32 := by rcases hx with h | h; exact h; exact absurd h hx64
        have hb := hb32 hx32
        rw [if_neg hx64, hR2a]
        simp only [shiftr_eq]
        norm_num
        omega
    rw [hAddrW, hR2m] at hv2
    have hFSmem : (gdbstub_be_mem32_write xlen A4
          (rmw_suffix R.2.1 (addr_lim - A4) data (jd + 4 * NW)) R.2.2).2.dm.mem =
        dm_write_bytes (mem_write_words NW addr4 data jd ST).dm.mem (B + A4)
          (rmw_suffix R.2.1 (addr_lim - A4) data (jd + 4 * NW)) 4 := by
      rw [hv2]
    have hFSaddr : (gdbstub_be_mem32_write xlen A4
          (rmw_suffix R.2.1 (addr_lim - A4) data (jd + 4 * NW)) R.2.2).2.dm.sbaddress =
        B + A4 := by
      rw [hv2]
    refine ⟨?_, ?_, ?_⟩
    · intro x hx1 hx2
      rw [hFSmem]
      by_cases hxA : x < A4
      · rw [dm_write_bytes_four, if_neg (by omega), if_neg (by omega), if_neg (by omega),
          if_neg (by omega), hw4, if_pos (by omega),
          show jd + (B + x - (B + addr4)) = jd + (x - addr4) by omega]
      · by_cases h0 : x = A4
        · rw [dm_write_bytes_four_wb, if_pos (by omega),
            rmw_suffix_byte _ _ _ _ hdata 0 (by norm_num), if_pos (by omega),
            show jd + 4 * NW + 0 = jd + (x - addr4) by omega]
        · by_cases h1 : x = A4 + 1
          · rw [dm_write_bytes_four_wb, if_neg (by omega), if_pos (by omega),
              rmw_suffix_byte _ _ _ _ hdata 1 (by norm_num), if_pos (by omega),
              show jd + 4 * NW + 1 = jd + (x - addr4) by omega]
          · by_cases h2 : x = A4 + 2
            · rw [dm_write_bytes_four_wb, if_neg (by omega), if_neg (by omega),
                if_pos (by omega),
                rmw_suffix_byte _ _ _ _ hdata 2 (by norm_num), if_pos (by omega),
                show jd + 4 * NW + 2 = jd + (x - addr4) by omega]
            · omega
    · intro y hy
      rw [hFSmem, dm_write_bytes_four, if_neg (by omega), if_neg (by omega),
        if_neg (by omega), if_neg (by omega), hw4, if_neg (by omega)]
    · intro h32
      have hb := hb32 h32
      rw [hFSaddr]
      simp only [shiftr_eq]
      norm_num
      omega
  · simp only [if_neg hrm]
    refine ⟨?_, ?_, ?_⟩
    · intro x hx1 hx2
      rw [hw4, if_pos (by omega), show jd + (B + x - (B + addr4)) = jd + (x - addr4) by omega]
    · intro y hy
      rw [hw4, if_neg (by omega)]
    · intro h32
      have hb := hb32 h32
      rw [hw3]
      simp only [shiftr_eq]
      norm_num
      omega


theorem mem_write_main_eval (xlen : Nat) (data : List Nat) (addr4 jd addr_lim : Nat)
    (s : BE) (B : Nat)
    (hB : B = if xlen = 64 then 0 else (s.dm.sbaddress >>> 32) * 4294967296)
    (hx : xlen = 32 ∨ xlen = 64)
    (hdata : ∀ b ∈ data, b < 256)
    (hal : addr4 % 4 = 0)
    (hlt : addr4 ≤ addr_lim + 3)
    (hbound : addr_lim + 8 ≤ 2 ^ xlen) :
    (mem_write_main xlen data addr4 jd addr_lim (addr_lim - addr_lim % 4) s).1 = status_ok ∧
    (∀ x : Nat, addr4 ≤ x → x < addr_lim →
      (mem_write_main xlen data addr4 jd addr_lim (addr_lim - addr_lim % 4) s).2.dm.mem (B + x)
        = data.getD (jd + (x - addr4)) 0) ∧
    (∀ y : Nat, y < B + addr4 →
      (mem_write_main xlen data addr4 jd addr_lim (addr_lim - addr_lim % 4) s).2.dm.mem y
        = s.dm.mem y) ∧
    (xlen = 32 →
      (mem_write_main xlen data addr4 jd addr_lim (addr_lim - addr_lim % 4) s).2.dm.sbaddress >>> 32
        = s.dm.sbaddress >>> 32) := by
  have hB0 : B % 4294967296 = 0 := by
    rw [hB]
    split_ifs
    · rfl
    · simp only [shiftr_eq]
      norm_num
  have hB64 : xlen = 64 → B = 0 := fun h => by rw [hB, if_pos h]
  by_cases hx64 : xlen = 64
  · have hb : addr_lim + 8 ≤ 18446744073709551616 := by
      rw [hx64] at hbound; norm_num at hbound; omega
    dsimp only [mem_write_main]
    simp only [if_pos hx64]
    simp only [wait_poll_eval, ite_ok_err, ite_ok_ne_ok, sbbusyerror_sbcs_value,
      sberror_sbcs_value, ite_false_cond, ite_sberr_none, dmi_read_sbcs_dm]
    have hA1 : (addr4 >>> 32 % 4294967296 % 4294967296 * 4294967296
          + s.dm.sbaddress % 4294967296) >>> 32 * 4294967296
          + addr4 % 4294967296 % 4294967296 = B + addr4 := by
      rw [hB, if_pos hx64]
      simp only [shiftr_eq]
      norm_num
      omega
    have hST : (dmi_write dm_addr_sbaddress0 (addr4 % 4294967296)
          (dmi_write dm_addr_sbaddress1 (addr4 >>> 32 % 4294967296)
            (dmi_read dm_addr_sbcs
                (dmi_write dm_addr_sbcs
                  (fn_mk_sbcs true false DM_SBACCESS_32_BIT true false DM_SBERROR_UNDEF7_W1C)
                  (dmi_read dm_addr_sbcs s).2)).2)).dm =
        { s.dm with sb_readonaddr := false, sb_access := 2, sb_autoincrement := true,
                    sb_readondata := false,
                    sbaddress := B + addr4 } := by
      simp only [dmi_write_dm, dmi_read_sbcs_dm, sbcs_cfg_main, dsw_sbaddress1,
        dsw_sbaddress0, ite_false_cond]
      rw [hA1]
    obtain ⟨ht1, ht2, ht3⟩ := mem_write_tail_eval xlen data addr4 jd addr_lim
      ((addr_lim - addr_lim % 4 - addr4) / 4)
      (addr4 + 4 * ((addr_lim - addr_lim % 4 - addr4) / 4)) B
      (dmi_write dm_addr_sbaddress0 (addr4 % 4294967296)
        (dmi_write dm_addr_sbaddress1 (addr4 >>> 32 % 4294967296)
          (dmi_read dm_addr_sbcs
              (dmi_write dm_addr_sbcs
                (fn_mk_sbcs true false DM_SBACCESS_32_BIT true false DM_SBERROR_UNDEF7_W1C)
                (dmi_read dm_addr_sbcs s).2)).2))
      hx hdata hal hbound hB0 hB64 rfl (by omega) (by omega)
      (by rw [hST]) (by rw [hST]) (by rw [hST])
    refine ⟨trivial, ht1, fun y hy => ?_, fun h32 => ?_⟩
    · rw [ht2 y hy, hST]
    · omega
  · have hx32 : xlen = 32 := by rcases hx with h | h; exact h; exact absurd h hx64
    have hb : addr_lim + 8 ≤ 4294967296 := by
      rw [hx32] at hbound; norm_num at hbound; omega
    dsimp only [mem_write_main]
    simp only [if_neg hx64]
    simp only [wait_poll_eval, ite_ok_err, ite_ok_ne_ok, sbbusyerror_sbcs_value,
      sberror_sbcs_value, ite_false_cond, ite_sberr_none, dmi_read_sbcs_dm]
    have hA1 : s.dm.sbaddress >>> 32 * 4294967296 + addr4 % 4294967296 % 4294967296
        = B + addr4 := by
      rw [hB, if_neg hx64]
      omega
    have hST : (dmi_write dm_addr_sbaddress0 (addr4 % 4294967296)
          (dmi_read dm_addr_sbcs
              (dmi_write dm_addr_sbcs
                (fn_mk_sbcs true false DM_SBACCESS_32_BIT true false DM_SBERROR_UNDEF7_W1C)
                (dmi_read dm_addr_sbcs s).2)).2).dm =
        { s.dm with sb_readonaddr := false, sb_access := 2, sb_autoincrement := true,
                    sb_readondata := false,
                    sbaddress := B + addr4 } := by
      simp only [dmi_write_dm, dmi_read_sbcs_dm, sbcs_cfg_main,
        dsw_sbaddress0, ite_false_cond]
      rw [hA1]
    obtain ⟨ht1, ht2, ht3⟩ := mem_write_tail_eval xlen data addr4 jd addr_lim
      ((addr_lim - addr_lim % 4 - addr4) / 4)
      (addr4 + 4 * ((addr_lim - addr_lim % 4 - addr4) / 4)) B
      (dmi_write dm_addr_sbaddress0 (addr4 % 4294967296)
        (dmi_read dm_addr_sbcs
            (dmi_write dm_addr_sbcs
              (fn_mk_sbcs true false DM_SBACCESS_32_BIT true false DM_SBERROR_UNDEF7_W1C)
              (dmi_read dm_addr_sbcs s).2)).2)
      hx hdata hal hbound hB0 hB64 rfl (by omega) (by omega)
      (by rw [hST]) (by rw [hST]) (by rw [hST])
    refine ⟨trivial, ht1, fun y hy => ?_, fun h32 => ?_⟩
    · rw [ht2 y hy, hST]
    · rw [ht3 h32, hB, if_neg hx64]
      simp only [shiftr_eq]
      norm_num


theorem mem_write_eval (xlen addr : Nat) (data : List Nat) (s : BE) (B : Nat)
    (hB : B = if xlen = 64 then 0 else (s.dm.sbaddress >>> 32) * 4294967296)
    (hx : xlen = 32 ∨ xlen = 64)
    (hdata : ∀ b ∈ data, b < 256)
    (hbound : addr + data.length + 8 ≤ 2 ^ xlen) :
    (gdbstub_be_mem_write true xlen addr data s).1 = status_ok ∧
    (∀ i : Nat, i < data.length →
      (gdbstub_be_mem_write true xlen addr data s).2.dm.mem (B + addr + i)
        = data.getD i 0) ∧
    (xlen = 32 →
      (gdbstub_be_mem_write true xlen addr data s).2.dm.sbaddress >>> 32
        = s.dm.sbaddress >>> 32) := by
  have hb64 : xlen = 64 → addr + data.length + 8 ≤ 18446744073709551616 := fun h => by
    rw [h] at hbound; norm_num at hbound; omega
  have hb32 : xlen = 32 → addr + data.length + 8 ≤ 4294967296 := fun h => by
    rw [h] at hbound; norm_num at hbound; omega
  dsimp only [gdbstub_be_mem_write]
  rw [if_neg (show ¬ ¬ (true = true) by simp)]
  by_cases hlen0 : data.length = 0
  · simp only [if_pos hlen0]
    exact ⟨trivial, fun i hi => by omega, fun h32 => trivial⟩
  · simp only [if_neg hlen0]
    by_cases hmod : addr % 4 = 0
    · rw [if_neg (show ¬ addr ≠ addr - addr % 4 by omega)]
      obtain ⟨hm1, hm2, hm3, hm4⟩ := mem_write_main_eval xlen data (addr - addr % 4) 0
        (addr + data.length) s B hB hx hdata (by omega) (by omega) hbound
      refine ⟨hm1, fun i hi => ?_, hm4⟩
      have h := hm2 (addr + i) (by omega) (by omega)
      rw [show B + addr + i = B + (addr + i) by omega, h,
        show 0 + (addr + i - (addr - addr % 4)) = i by omega]
    · rw [if_pos (show addr ≠ addr - addr % 4 by omega)]
      obtain ⟨hr1, hr2, hr3⟩ := mem32_read_eval xlen (addr - addr % 4) s (by omega)
      have hAddrR : (if xlen = 64
            then (((addr - addr % 4) >>> 32) % 4294967296) * 4294967296
              + (addr - addr % 4) % 4294967296
            else (s.dm.sbaddress >>> 32) * 4294967296 + (addr - addr % 4) % 4294967296)
          = B + (addr - addr % 4) := by
        by_cases hx64 : xlen = 64
        · have hb := hb64 hx64
          rw [if_pos hx64, hB, if_pos hx64]
          simp only [shiftr_eq]
          norm_num
          omega
        · have hx32 : xlen = 32 := by rcases hx with h | h; exact h; exact absurd h hx64
          have hb := hb32 hx32
          rw [if_neg hx64, hB, if_neg hx64]
          omega
      rw [hAddrR] at hr2 hr3
      generalize hR : gdbstub_be_mem32_read xlen (addr - addr % 4) s = R
      rw [hR] at hr1 hr2 hr3
      simp only [hr1, ite_ok_ne_ok]
      have hR2m : R.2.2.dm.mem = s.dm.mem := by rw [hr3]
      have hR2a : R.2.2.dm.sbaddress = B + (addr - addr % 4) + 8 := by rw [hr3]
      obtain ⟨hv1, hv2⟩ := mem32_write_eval xlen (addr - addr % 4)
        (rmw_lead R.2.1 (addr - (addr - addr % 4)) data) R.2.2 (by omega)
      have hAddrW : (if xlen = 64
            then (((addr - addr % 4) >>> 32) % 4294967296) * 4294967296
              + (addr - addr % 4) % 4294967296
            else (R.2.2.dm.sbaddress >>> 32) * 4294967296 + (addr - addr % 4) % 4294967296)
          = B + (addr - addr % 4) := by
        by_cases hx64 : xlen = 64
        · have hb := hb64 hx64
          rw [if_pos hx64, hB, if_pos hx64]
          simp only [shiftr_eq]
          norm_num
          omega
        · have hx32 : xlen = 32 := by rcases hx with h | h; exact h; exact absurd h hx64
          have hb := hb32 hx32
          have hB0 : B % 4294967296 = 0 := by
            rw [hB, if_neg hx64]
            simp only [shiftr_eq]
            norm_num
          rw [if_neg hx64, hR2a]
          simp only [shiftr_eq]
          norm_num
          omega
      rw [hAddrW, hR2m] at hv2
      generalize hW : gdbstub_be_mem32_write xlen (addr - addr % 4)
        (rmw_lead R.2.1 (addr - (addr - addr % 4)) data) R.2.2 = W
      rw [hW] at hv1 hv2
      simp only [hv1, ite_ok_ne_ok]
      have hW2a : W.2.dm.sbaddress = B + (addr - addr % 4) := by rw [hv2]
      have hW2m : W.2.dm.mem = dm_write_bytes s.dm.mem (B + (addr - addr % 4))
          (rmw_lead R.2.1 (addr - (addr - addr % 4)) data) 4 := by rw [hv2]
      have hB' : B = if xlen = 64 then 0 else (W.2.dm.sbaddress >>> 32) * 4294967296 := by
        by_cases hx64 : xlen = 64
        · rw [if_pos hx64, hB, if_pos hx64]
        · have hx32 : xlen = 32 := by rcases hx with h | h; exact h; exact absurd h hx64
          have hb := hb32 hx32
          have hB0 : B % 4294967296 = 0 := by
            rw [hB, if_neg hx64]
            simp only [shiftr_eq]
            norm_num
          rw [if_neg hx64, hW2a]
          simp only [shiftr_eq]
          norm_num
          omega
      obtain ⟨hm1, hm2, hm3, hm4⟩ := mem_write_main_eval xlen data (addr - addr % 4 + 4)
        (4 - (addr - (addr - addr % 4))) (addr + data.length) W.2 B hB' hx hdata
        (by omega) (by omega) hbound
      refine ⟨hm1, fun i hi => ?_, fun h32 => ?_⟩
      · by_cases hpre : addr + i < addr - addr % 4 + 4
        · rw [show B + addr + i = B + (addr + i) by omega,
            hm3 (B + (addr + i)) (by omega), hW2m]
          have hoff : addr + i = (addr - addr % 4) + (addr % 4 + i) := by omega
          by_cases hp1 : addr % 4 + i = 1
          · rw [dm_write_bytes_four_wb, if_neg (by omega), if_pos (by omega),
              rmw_lead_byte _ _ _ hdata 1 (by norm_num), if_neg (by omega),
              show 1 - (addr - (addr - addr % 4)) = i by omega]
          · by_cases hp2 : addr % 4 + i = 2
            · rw [dm_write_bytes_four_wb, if_neg (by omega), if_neg (by omega),
                if_pos (by omega),
                rmw_lead_byte _ _ _ hdata 2 (by norm_num), if_neg (by omega),
                show 2 - (addr - (addr - addr % 4)) = i by omega]
            · by_cases hp3 : addr % 4 + i = 3
              · rw [dm_write_bytes_four_wb, if_neg (by omega), if_neg (by omega),
                  if_neg (by omega), if_pos (by omega),
                  rmw_lead_byte _ _ _ hdata 3 (by norm_num), if_neg (by omega),
                  show 3 - (addr - (addr - addr % 4)) = i by omega]
              · omega
        · have h := hm2 (addr + i) (by omega) (by omega)
          rw [show B + addr + i = B + (addr + i) by omega, h,
            show 4 - (addr - (addr - addr % 4)) + (addr + i - (addr - addr % 4 + 4)) = i by omega]
      · rw [hm4 h32, hW2a, hB, if_neg (by omega)]
        have hb := hb32 h32
        simp only [shiftr_eq]
        norm_num
        omega


/-- C2: for every address and byte list (any alignment, any length including 0),
after a successful gdbstub_be_mem_write over the System-Bus memory model, a
gdbstub_be_mem_read of the same address and length returns status_ok and its
buffer holds exactly the written bytes.  The write itself also returns
status_ok; the addresses are required to fit the XLEN address space. -/
theorem C2_mem_write_read_roundtrip (xlen addr : Nat) (data : List Nat) (s : BE)
    (hx : xlen = 32 ∨ xlen = 64)
    (hdata : ∀ b ∈ data, b < 256)
    (hbound : addr + data.length + 8 ≤ 2 ^ xlen) :
    (gdbstub_be_mem_write true xlen addr data s).1 = status_ok ∧
    (gdbstub_be_mem_read true xlen addr data.length
        (gdbstub_be_mem_write true xlen addr data s).2).1 = status_ok ∧
    ((gdbstub_be_mem_read true xlen addr data.length
        (gdbstub_be_mem_write true xlen addr data s).2).2.1).take data.length = data := by
  obtain ⟨hw1, hw2, hw3⟩ := mem_write_eval xlen addr data s
    (if xlen = 64 then 0 else (s.dm.sbaddress >>> 32) * 4294967296) rfl hx hdata hbound
  have hBeq : (if xlen = 64 then 0
        else ((gdbstub_be_mem_write true xlen addr data s).2.dm.sbaddress >>> 32) * 4294967296)
      = (if xlen = 64 then 0 else (s.dm.sbaddress >>> 32) * 4294967296) := by
    by_cases hx64 : xlen = 64
    · rw [if_pos hx64, if_pos hx64]
    · have hx32 : xlen = 32 := by rcases hx with h | h; exact h; exact absurd h hx64
      rw [if_neg hx64, if_neg hx64, hw3 hx32]
  obtain ⟨hr1, hr2⟩ := mem_read_eval xlen addr data.length
    (gdbstub_be_mem_write true xlen addr data s).2
    (if xlen = 64 then 0 else (s.dm.sbaddress >>> 32) * 4294967296)
    hBeq.symm hx hbound
  have hmap : (List.range data.length).map
      (fun i => (gdbstub_be_mem_write true xlen addr data s).2.dm.mem
        ((if xlen = 64 then 0 else (s.dm.sbaddress >>> 32) * 4294967296) + addr + i) % 256)
      = data := by
    apply List.ext_getElem (by simp)
    intro n h1 h2
    simp only [List.getElem_map, List.getElem_range]
    rw [hw2 n (by simpa using h2), List.getD_eq_getElem data 0 (by simpa using h2)]
    exact Nat.mod_eq_of_lt (hdata _ (List.getElem_mem _))
  exact ⟨hw1, hr1, by rw [hr2, hmap]⟩

theorem C2_witness :
    (gdbstub_be_mem_write true 32 2 [1, 2, 3, 4, 5] be_quiet).1 = status_ok ∧
    (gdbstub_be_mem_read true 32 2 ([1, 2, 3, 4, 5] : List Nat).length
        (gdbstub_be_mem_write true 32 2 [1, 2, 3, 4, 5] be_quiet).2).1 = status_ok ∧
    ((gdbstub_be_mem_read true 32 2 ([1, 2, 3, 4, 5] : List Nat).length
        (gdbstub_be_mem_write true 32 2 [1, 2, 3, 4, 5] be_quiet).2).2.1).take
      ([1, 2, 3, 4, 5] : List Nat).length = [1, 2, 3, 4, 5] :=
  C2_mem_write_read_roundtrip 32 2 [1, 2, 3, 4, 5] be_quiet (Or.inl rfl)
    (by decide) (by norm_num)

end Gdbstub
